import Mathlib

/-!
# IntraView overlay: window/render state machine and command listener

A shallow embedding of `overlay/src/OverlayWindow.cpp`, `overlay/src/IPCManager.cpp`
and `overlay/src/main.cpp`.

* A COM pointer or window handle is a `Bool`: `true` for a non-null pointer.
* Every call into the platform is recorded, in the order it is made and together with
  the thread that makes it, in `World.log`.  The outcome of a platform call that the
  program cannot control (creation succeeded or not, what `EndDraw` returned, the
  current client area) is an argument of the operation (`Env`, `InitEnv`).
* `std::wstring` is `String`.
-/

namespace IntraView

/-! ## Data model -/

/-- The two threads of the process: the one that runs `main` (it creates the window and
runs the message loop) and `listenerThread_`, started by `IPCManager::Start`. -/
inductive Thread where
  | ui
  | listener
  deriving DecidableEq, Repr

/-- The type `D2D1_SIZE_U`: a client-area size. -/
structure SizeU where
  width : Nat
  height : Nat
  deriving DecidableEq, Repr

/-- The `HRESULT` of `EndDraw`, as far as `Render` distinguishes it. -/
inductive HResult where
  | S_OK
  | D2DERR_RECREATE_TARGET
  | otherFailure
  deriving DecidableEq, Repr

/-- The releasable COM objects held by `OverlayWindow`. -/
inductive Resource where
  | renderTarget
  | textBrush
  | backgroundBrush
  | textFormat
  | dwFactory
  | d2dFactory
  deriving DecidableEq, Repr

/-- Window messages, as far as `WindowProc` distinguishes them once the object pointer
is stored in the window. -/
inductive Msg where
  | WM_PAINT
  | WM_DISPLAYCHANGE
  | WM_SIZE
  | WM_DESTROY
  | other
  deriving DecidableEq, Repr

/-- One entry of the log: a call made by the program.  `render` is the only entry that
is not a platform call: it marks that `OverlayWindow::Render` was entered. -/
inductive Event where
  | coInitialize
  | coUninitialize
  | registerClassEx (ok : Bool)
  | createWindowEx (x y width height : Int) (ok : Bool)
  | setWindowDisplayAffinity
  | dwmEnableBlurBehindWindow (width height : Int)
  | d2d1CreateFactory (ok : Bool)
  | dwriteCreateFactory (ok : Bool)
  | createTextFormat (ok : Bool)
  | setTextAlignment
  | setParagraphAlignment
  | getClientRect
  | createHwndRenderTarget (size : SizeU) (ok : Bool)
  | createSolidColorBrush (which : Resource) (ok : Bool)
  | render
  | beginDraw
  | clear
  | fillRectangle
  | drawText (text : String)
  | endDraw (hr : HResult)
  | resizeTarget (size : SizeU)
  | release (which : Resource)
  | showWindow (cmdShow : Bool)
  | updateWindow
  | validateRect
  | defWindowProc
  | destroyWindow
  | postQuitMessage
  | threadStart
  | threadJoin
  | cerr (text : String)
  | wcout (text : String)
  deriving DecidableEq, Repr

/-- The fields of `OverlayWindow` (OverlayWindow.h). -/
structure OverlayWindow where
  hwnd_ : Bool
  visible_ : Bool
  displayText_ : String
  d2dFactory_ : Bool
  renderTarget_ : Bool
  textBrush_ : Bool
  backgroundBrush_ : Bool
  dwFactory_ : Bool
  textFormat_ : Bool
  dcompDevice_ : Bool
  dcompTarget_ : Bool
  dcompVisual_ : Bool
  deriving DecidableEq, Repr

/-- The fields of `IPCManager` (IPCManager.h): whether `callback_` holds a function,
the flag `running_`, and whether `listenerThread_` is joinable. -/
structure IPCManager where
  callback_ : Bool
  running_ : Bool
  joinable : Bool
  deriving DecidableEq, Repr

/-- The program state: the two objects of `main` and the log of calls made so far,
oldest first. -/
structure World where
  overlay : OverlayWindow
  ipc : IPCManager
  log : List (Thread × Event)
  deriving DecidableEq, Repr

/-- What the platform answers during one operation: the client area reported by
`GetClientRect`, whether `CreateHwndRenderTarget` and the two `CreateSolidColorBrush`
calls succeed, and what `EndDraw` returns. -/
structure Env where
  clientSize : SizeU
  createRenderTarget : Bool
  createTextBrush : Bool
  createBackgroundBrush : Bool
  endDraw : HResult
  deriving DecidableEq, Repr

/-- What the platform answers during `Initialize`. -/
structure InitEnv where
  registerClass : Bool
  screenWidth : Int
  createWindow : Bool
  d2dFactory : Bool
  dwFactory : Bool
  textFormat : Bool
  deriving DecidableEq, Repr

def WINDOW_WIDTH : Int := 600

def WINDOW_HEIGHT : Int := 400

/-- Append one call, made by thread `t`, to the log. -/
def emit (t : Thread) (ev : Event) (w : World) : World :=
  { w with log := w.log ++ [(t, ev)] }

/-! ## OverlayWindow -/

/-- Embedding of `OverlayWindow::OverlayWindow`: the member initialisers of OverlayWindow.cpp lines
10-24. -/
def OverlayWindow.new : OverlayWindow :=
  { hwnd_ := false
    visible_ := true
    displayText_ := "IntraView HUD Ready"
    d2dFactory_ := false
    renderTarget_ := false
    textBrush_ := false
    backgroundBrush_ := false
    dwFactory_ := false
    textFormat_ := false
    dcompDevice_ := false
    dcompTarget_ := false
    dcompVisual_ := false }

/-- Embedding of `IPCManager::IPCManager`: `running_(false)`, empty callback, no thread. -/
def IPCManager.new : IPCManager :=
  { callback_ := false, running_ := false, joinable := false }

/-- Embedding of `OverlayWindow::CreateDeviceResources` (OverlayWindow.cpp lines 109-145). -/
def CreateDeviceResources (t : Thread) (e : Env) (w : World) : World :=
  if w.overlay.renderTarget_ then w
  else
    let w1 := emit t Event.getClientRect w
    let w2 :=
      if w1.overlay.d2dFactory_ then
        let w1a := emit t (Event.createHwndRenderTarget e.clientSize e.createRenderTarget) w1
        { w1a with overlay := { w1a.overlay with renderTarget_ := e.createRenderTarget } }
      else w1
    if w2.overlay.renderTarget_ then
      let w3 := emit t (Event.createSolidColorBrush Resource.textBrush e.createTextBrush) w2
      let w4 := { w3 with overlay := { w3.overlay with textBrush_ := e.createTextBrush } }
      let w5 :=
        emit t (Event.createSolidColorBrush Resource.backgroundBrush e.createBackgroundBrush) w4
      { w5 with overlay := { w5.overlay with backgroundBrush_ := e.createBackgroundBrush } }
    else w2

/-- Embedding of `OverlayWindow::DiscardDeviceResources` (OverlayWindow.cpp lines 147-154). -/
def DiscardDeviceResources (t : Thread) (w : World) : World :=
  let w1 := if w.overlay.textBrush_ then emit t (Event.release Resource.textBrush) w else w
  let w2 :=
    if w1.overlay.backgroundBrush_ then emit t (Event.release Resource.backgroundBrush) w1
    else w1
  let w3 :=
    if w2.overlay.renderTarget_ then emit t (Event.release Resource.renderTarget) w2 else w2
  { w3 with overlay :=
      { w3.overlay with textBrush_ := false, backgroundBrush_ := false, renderTarget_ := false } }

/-- Embedding of `OverlayWindow::Render` (OverlayWindow.cpp lines 156-187). -/
def Render (t : Thread) (e : Env) (w : World) : World :=
  let w0 := emit t Event.render w
  let w1 := if !w0.overlay.renderTarget_ then CreateDeviceResources t e w0 else w0
  if !w1.overlay.renderTarget_ then w1
  else
    let w2 := emit t Event.beginDraw w1
    let w3 := emit t Event.clear w2
    let w4 := if w3.overlay.backgroundBrush_ then emit t Event.fillRectangle w3 else w3
    let w5 :=
      if w4.overlay.textBrush_ && w4.overlay.textFormat_ then
        emit t (Event.drawText w4.overlay.displayText_) w4
      else w4
    let w6 := emit t (Event.endDraw e.endDraw) w5
    if e.endDraw = HResult.D2DERR_RECREATE_TARGET then DiscardDeviceResources t w6 else w6

/-- Embedding of `OverlayWindow::Show` (OverlayWindow.cpp lines 189-194). -/
def Show (t : Thread) (e : Env) (w : World) : World :=
  let w1 := { w with overlay := { w.overlay with visible_ := true } }
  let w2 := emit t (Event.showWindow true) w1
  let w3 := emit t Event.updateWindow w2
  Render t e w3

/-- Embedding of `OverlayWindow::Hide` (OverlayWindow.cpp lines 196-199). -/
def Hide (t : Thread) (w : World) : World :=
  let w1 := { w with overlay := { w.overlay with visible_ := false } }
  emit t (Event.showWindow false) w1

/-- Embedding of `OverlayWindow::Toggle` (OverlayWindow.cpp lines 201-207). -/
def Toggle (t : Thread) (e : Env) (w : World) : World :=
  if w.overlay.visible_ then Hide t w else Show t e w

/-- Embedding of `OverlayWindow::UpdateText` (OverlayWindow.cpp lines 209-214). -/
def UpdateText (t : Thread) (e : Env) (text : String) (w : World) : World :=
  let w1 := { w with overlay := { w.overlay with displayText_ := text } }
  if w1.overlay.visible_ then Render t e w1 else w1

/-- Embedding of `OverlayWindow::Shutdown` (OverlayWindow.cpp lines 226-237). -/
def Shutdown (t : Thread) (w : World) : World :=
  let w1 := DiscardDeviceResources t w
  let w2 := if w1.overlay.textFormat_ then emit t (Event.release Resource.textFormat) w1 else w1
  let w3 := if w2.overlay.dwFactory_ then emit t (Event.release Resource.dwFactory) w2 else w2
  let w4 := if w3.overlay.d2dFactory_ then emit t (Event.release Resource.d2dFactory) w3 else w3
  if w4.overlay.hwnd_ then
    let w5 := emit t Event.destroyWindow w4
    { w5 with overlay := { w5.overlay with hwnd_ := false } }
  else w4

/-- Embedding of `OverlayWindow::Resize` (OverlayWindow.cpp lines 239-252). -/
def Resize (t : Thread) (e : Env) (w : World) : World :=
  if w.overlay.renderTarget_ then
    let w1 := emit t Event.getClientRect w
    let w2 := emit t (Event.resizeTarget e.clientSize) w1
    Render t e w2
  else w

/-- Embedding of `OverlayWindow::WindowProc` (OverlayWindow.cpp lines 254-284) for a message other
than `WM_NCCREATE`; `pThis` says whether the window's user data holds the object. -/
def WindowProc (t : Thread) (e : Env) (pThis : Bool) (uMsg : Msg) (w : World) : World :=
  if pThis then
    match uMsg with
    | Msg.WM_PAINT => emit t Event.validateRect (Render t e w)
    | Msg.WM_DISPLAYCHANGE => emit t Event.validateRect (Render t e w)
    | Msg.WM_SIZE => Resize t e w
    | Msg.WM_DESTROY => emit t Event.postQuitMessage w
    | Msg.other => emit t Event.defWindowProc w
  else emit t Event.defWindowProc w

/-- Embedding of `OverlayWindow::Initialize` (OverlayWindow.cpp lines 30-107). -/
def Initialize (t : Thread) (ie : InitEnv) (e : Env) (w : World) : Bool × World :=
  let w1 := emit t (Event.registerClassEx ie.registerClass) w
  if !ie.registerClass then (false, w1)
  else
    let x := Int.tdiv (ie.screenWidth - WINDOW_WIDTH) 2
    let y : Int := 100
    let w2 := emit t (Event.createWindowEx x y WINDOW_WIDTH WINDOW_HEIGHT ie.createWindow) w1
    let w3 := { w2 with overlay := { w2.overlay with hwnd_ := ie.createWindow } }
    if !w3.overlay.hwnd_ then (false, w3)
    else
      let w4 := emit t Event.setWindowDisplayAffinity w3
      let w5 := emit t (Event.dwmEnableBlurBehindWindow WINDOW_WIDTH WINDOW_HEIGHT) w4
      let w6 := emit t (Event.d2d1CreateFactory ie.d2dFactory) w5
      let w7 := { w6 with overlay := { w6.overlay with d2dFactory_ := ie.d2dFactory } }
      let w8 := emit t (Event.dwriteCreateFactory ie.dwFactory) w7
      let w9 := { w8 with overlay := { w8.overlay with dwFactory_ := ie.dwFactory } }
      let w10 :=
        if w9.overlay.dwFactory_ then
          let a := emit t (Event.createTextFormat ie.textFormat) w9
          let b := { a with overlay := { a.overlay with textFormat_ := ie.textFormat } }
          if b.overlay.textFormat_ then
            emit t Event.setParagraphAlignment (emit t Event.setTextAlignment b)
          else b
        else w9
      (true, CreateDeviceResources t e w10)

/-! ## IPCManager and the callback of `main` -/

/-- The lambda passed to `ipc.Start` (main.cpp lines 25-38), run by thread `t`. -/
def messageCallback (t : Thread) (e : Env) (message : String) (w : World) : World :=
  if message = "toggle" then Toggle t e w
  else if message = "show" then Show t e w
  else if message = "hide" then Hide t w
  else if message = "exit" then emit t Event.postQuitMessage w
  else UpdateText t e message w

/-- Embedding of `IPCManager::Start` (IPCManager.cpp lines 12-16), called by thread `t`. -/
def Start (t : Thread) (w : World) : World :=
  let w1 := { w with ipc := { w.ipc with callback_ := true, running_ := true } }
  let w2 := emit t Event.threadStart w1
  { w2 with ipc := { w2.ipc with joinable := true } }

/-- Embedding of `IPCManager::ReadLine` (IPCManager.cpp lines 34-48).  `input` is what `std::getline`
gave, already decoded: `none` when it failed (end of input). -/
def ReadLine (input : Option String) (w : World) : String × World :=
  match input with
  | none => ("", { w with ipc := { w.ipc with running_ := false } })
  | some line => (line, w)

/-- One run of the body of the `while` of `IPCManager::ListenLoop` (IPCManager.cpp
lines 27-30); it runs on `listenerThread_`. -/
def ListenLoopBody (e : Env) (input : Option String) (w : World) : World :=
  let r := ReadLine input w
  if r.1 ≠ "" ∧ r.2.ipc.callback_ then messageCallback Thread.listener e r.1 r.2 else r.2

/-- Embedding of `IPCManager::ListenLoop` (IPCManager.cpp lines 25-32) over the reads that standard
input serves; when they are used up the thread is blocked in `std::getline`. -/
def ListenLoop : List (Env × Option String) → World → World
  | [], w => w
  | (e, input) :: rest, w =>
    if w.ipc.running_ then ListenLoop rest (ListenLoopBody e input w) else w

/-! ## Runs of operations -/

/-- What can be done to an initialized renderer: a call of one of its public operations,
or a window message dispatched to `WindowProc`. -/
inductive Action where
  | Toggle
  | Show
  | Hide
  | UpdateText (text : String)
  | Message (uMsg : Msg)
  deriving DecidableEq, Repr

/-- Perform one action on thread `t`. -/
def step (t : Thread) (e : Env) (a : Action) (w : World) : World :=
  match a with
  | Action.Toggle => Toggle t e w
  | Action.Show => Show t e w
  | Action.Hide => Hide t w
  | Action.UpdateText text => UpdateText t e text w
  | Action.Message uMsg => WindowProc t e true uMsg w

/-- Perform a sequence of actions, first to last. -/
def exec (as : List (Thread × Env × Action)) (w : World) : World :=
  as.foldl (fun acc a => step a.1 a.2.1 a.2.2 acc) w

/-- The state in which `main` starts: both objects constructed, nothing called. -/
def World.start : World :=
  { overlay := OverlayWindow.new, ipc := IPCManager.new, log := [] }

/-! ## The message loop and `main` -/

/-- What `main` meets while `Run` is in its loop: a read completed on the listener
thread, or a window message retrieved by `GetMessage` and dispatched on the UI thread. -/
inductive Input where
  | stdin (input : Option String)
  | message (uMsg : Msg)
  deriving DecidableEq, Repr

/-- Hand one input to the thread it belongs to. -/
def deliver (e : Env) (i : Input) (w : World) : World :=
  match i with
  | Input.stdin input => if w.ipc.running_ then ListenLoopBody e input w else w
  | Input.message uMsg => WindowProc Thread.ui e true uMsg w

/-- Whether `WM_QUIT` is in the message queue of thread `t`: `PostQuitMessage` posts it
to the queue of the thread that calls it. -/
def quitPosted (t : Thread) (w : World) : Bool :=
  decide ((t, Event.postQuitMessage) ∈ w.log)

/-- The `while (GetMessage(...))` of `OverlayWindow::Run` (OverlayWindow.cpp lines
220-223) on the UI thread, with the listener running beside it.  `GetMessage` returns
0, ending the loop, once `WM_QUIT` is in the UI thread's queue; the result is the state
then, with the inputs not yet met.  `none` means that all inputs are used up and the
loop is still waiting in `GetMessage`. -/
def messageLoop : List (Env × Input) → World → Option (World × List (Env × Input))
  | [], w => if quitPosted Thread.ui w then some (w, []) else none
  | (e, i) :: rest, w =>
    if quitPosted Thread.ui w then some (w, (e, i) :: rest)
    else messageLoop rest (deliver e i w)

/-- Embedding of `OverlayWindow::Run` (OverlayWindow.cpp lines 216-224), called on the
UI thread. -/
def Run (e : Env) (inputs : List (Env × Input)) (w : World) :
    Option (World × List (Env × Input)) :=
  messageLoop inputs (Show Thread.ui e w)

/-- The read on which the listener is waiting in `std::getline` while another thread
waits in `join`: the first read among the inputs left, and the inputs after it.  Window
messages that arrive before it are not dispatched: the thread that owns the window is
in `join`, not in `GetMessage`. -/
def pendingRead : List (Env × Input) → Option ((Env × Option String) × List (Env × Input))
  | [] => none
  | (e, Input.stdin input) :: rest => some ((e, input), rest)
  | (_, Input.message _) :: rest => pendingRead rest

/-- Embedding of `IPCManager::Stop` (IPCManager.cpp lines 18-23), called by thread `t`
with `inputs` still to come.  `listenerThread_.join()` returns when the listener has
left `ListenLoop`.  A listener that has left already (it cleared `running_` at the end
of input) is joined at once.  Otherwise the listener is in `std::getline`: `join` lasts
until that read completes, the listener finishes this pass of its loop (a non-empty
line is still handed to the callback) and then finds `running_` cleared.  The result is
the state after `Stop` with the inputs left; `none` means that no read completes and
`join` does not return. -/
def Stop (t : Thread) (inputs : List (Env × Input)) (w : World) :
    Option (World × List (Env × Input)) :=
  let w1 := { w with ipc := { w.ipc with running_ := false } }
  if w1.ipc.joinable then
    let w2 := emit t Event.threadJoin w1
    if w.ipc.running_ then
      match pendingRead inputs with
      | none => none
      | some (r, rest) =>
        let w3 := ListenLoopBody r.1 r.2 w2
        some ({ w3 with ipc := { w3.ipc with joinable := false } }, rest)
    else some ({ w2 with ipc := { w2.ipc with joinable := false } }, inputs)
  else some (w1, inputs)

/-- Embedding of `main` (main.cpp): the exit code and the final state, or `none` when
`main` has not returned after the given inputs.  The destructors of `ipc` and `overlay`
run at each `return`, in reverse order of construction. -/
def main (ie : InitEnv) (e0 e1 : Env) (inputs : List (Env × Input)) : Option (Int × World) :=
  let w0 := emit Thread.ui Event.coInitialize World.start
  let r := Initialize Thread.ui ie e0 w0
  if !r.1 then
    let w1 := emit Thread.ui (Event.cerr "Failed to initialize overlay window") r.2
    let w2 := emit Thread.ui Event.coUninitialize w1
    some (1, Shutdown Thread.ui w2)
  else
    let w1 := emit Thread.ui (Event.wcout "IntraView Overlay Started") r.2
    let w2 := Start Thread.ui w1
    match Run e1 inputs w2 with
    | none => none
    | some (w3, rest) =>
      match Stop Thread.ui rest w3 with
      | none => none
      | some (w4, rest2) =>
        let w5 := Shutdown Thread.ui w4
        let w6 := emit Thread.ui Event.coUninitialize w5
        match Stop Thread.ui rest2 w6 with
        | none => none
        | some (w7, _) => some (0, Shutdown Thread.ui w7)

/-- The renderer operation that the callback of `main` (main.cpp lines 26-37) calls for
a line other than `exit`. -/
def lineAction (line : String) : Action :=
  if line = "toggle" then Action.Toggle
  else if line = "show" then Action.Show
  else if line = "hide" then Action.Hide
  else Action.UpdateText line

/-! ## Observations on the log -/

/-- The calls that put something on the surface: `Clear`, `FillRectangle`, `DrawTextW`. -/
def isDraw : Event → Bool
  | Event.clear => true
  | Event.fillRectangle => true
  | Event.drawText _ => true
  | _ => false

/-- The draw calls of a piece of log. -/
def drawCalls (l : List (Thread × Event)) : List (Thread × Event) :=
  l.filter (fun c => isDraw c.2)

/-- The texts handed to `DrawTextW` in a piece of log, in order. -/
def drawnTexts : List (Thread × Event) → List String
  | [] => []
  | (_, Event.drawText s) :: rest => s :: drawnTexts rest
  | _ :: rest => drawnTexts rest

/-- How often `Render` was entered in a piece of log. -/
def renderCount (l : List (Thread × Event)) : Nat :=
  l.countP (fun c => decide (c.2 = Event.render))

/-- What a call does to the number of live drawing surfaces: a successful
`CreateHwndRenderTarget` adds one, `Release` of the render target takes one away. -/
def surfaceDelta : Event → Int
  | Event.createHwndRenderTarget _ true => 1
  | Event.release Resource.renderTarget => -1
  | _ => 0

/-- Drawing surfaces created and not yet released over a piece of log. -/
def liveSurfaces (l : List (Thread × Event)) : Int :=
  (l.map (fun c => surfaceDelta c.2)).sum

/-- Starting with `c` live surfaces, the count stays within 0 and 1 after every call. -/
def surfacesOk : Int → List (Thread × Event) → Bool
  | _, [] => true
  | c, x :: xs =>
    decide (0 ≤ c + surfaceDelta x.2 ∧ c + surfaceDelta x.2 ≤ 1) &&
      surfacesOk (c + surfaceDelta x.2) xs

/-- A null/non-null pointer as a count. -/
def count (b : Bool) : Int := if b then 1 else 0

/-- How often resource `r` is released in a piece of log. -/
def releaseCount (r : Resource) (l : List (Thread × Event)) : Nat :=
  l.countP (fun c => decide (c.2 = Event.release r))

/-! ## The calls and the resulting object of the rendering operations, in closed form -/

/-- The calls made by `CreateDeviceResources` on object `o`. -/
def createEvents (t : Thread) (e : Env) (o : OverlayWindow) : List (Thread × Event) :=
  if o.renderTarget_ then []
  else if o.d2dFactory_ then
    if e.createRenderTarget then
      [(t, Event.getClientRect), (t, Event.createHwndRenderTarget e.clientSize true),
        (t, Event.createSolidColorBrush Resource.textBrush e.createTextBrush),
        (t, Event.createSolidColorBrush Resource.backgroundBrush e.createBackgroundBrush)]
    else [(t, Event.getClientRect), (t, Event.createHwndRenderTarget e.clientSize false)]
  else [(t, Event.getClientRect)]

/-- The object after `CreateDeviceResources`. -/
def createOverlay (e : Env) (o : OverlayWindow) : OverlayWindow :=
  if o.renderTarget_ then o
  else if o.d2dFactory_ && e.createRenderTarget then
    { o with renderTarget_ := true, textBrush_ := e.createTextBrush,
             backgroundBrush_ := e.createBackgroundBrush }
  else o

/-- The calls made by `DiscardDeviceResources` on object `o`. -/
def discardEvents (t : Thread) (o : OverlayWindow) : List (Thread × Event) :=
  (if o.textBrush_ then [(t, Event.release Resource.textBrush)] else []) ++
  (if o.backgroundBrush_ then [(t, Event.release Resource.backgroundBrush)] else []) ++
  (if o.renderTarget_ then [(t, Event.release Resource.renderTarget)] else [])

/-- The object after `DiscardDeviceResources`. -/
def discardOverlay (o : OverlayWindow) : OverlayWindow :=
  { o with textBrush_ := false, backgroundBrush_ := false, renderTarget_ := false }

/-- The calls between `BeginDraw` and `EndDraw` of `Render` on object `o`. -/
def drawEvents (t : Thread) (e : Env) (o : OverlayWindow) : List (Thread × Event) :=
  [(t, Event.beginDraw), (t, Event.clear)] ++
  (if o.backgroundBrush_ then [(t, Event.fillRectangle)] else []) ++
  (if o.textBrush_ && o.textFormat_ then [(t, Event.drawText o.displayText_)] else []) ++
  [(t, Event.endDraw e.endDraw)]

/-- The object after `Render`. -/
def renderOverlay (e : Env) (o : OverlayWindow) : OverlayWindow :=
  if (createOverlay e o).renderTarget_ && decide (e.endDraw = HResult.D2DERR_RECREATE_TARGET) then
    discardOverlay (createOverlay e o)
  else createOverlay e o

/-- The calls made by `Render` on object `o`. -/
def renderEvents (t : Thread) (e : Env) (o : OverlayWindow) : List (Thread × Event) :=
  (t, Event.render) :: (createEvents t e o ++
    (if (createOverlay e o).renderTarget_ then
      drawEvents t e (createOverlay e o) ++
        (if e.endDraw = HResult.D2DERR_RECREATE_TARGET then discardEvents t (createOverlay e o)
         else [])
     else []))

/-- What holds of every call that `Render` makes on thread `t` showing text `txt`. -/
def renderCall (t : Thread) (txt : String) (c : Thread × Event) : Prop :=
  c.1 = t ∧ c.2 ≠ Event.postQuitMessage ∧ (∀ s, c.2 = Event.drawText s → s = txt) ∧
    (∀ size, c.2 ≠ Event.resizeTarget size)

/-- The surface invariant of a log whose object holds a surface exactly when `rt`: at
every moment the number of live surfaces is 0 or 1, and at the end it is 1 exactly when
`renderTarget_` is non-null. -/
def SurfaceInv (log : List (Thread × Event)) (rt : Bool) : Prop :=
  (∀ n, 0 ≤ liveSurfaces (log.take n) ∧ liveSurfaces (log.take n) ≤ 1) ∧
    liveSurfaces log = count rt

/-- The calls `evs`, made when the object holds a surface exactly when `rt`, keep the
number of live surfaces within 0 and 1 and end with a surface exactly when `rt2`. -/
def Adds (rt : Bool) (evs : List (Thread × Event)) (rt2 : Bool) : Prop :=
  surfacesOk (count rt) evs = true ∧ count rt + liveSurfaces evs = count rt2

/-! ## Sample inputs -/

/-- An `Initialize` in which every platform call succeeds, on a 1920 wide screen. -/
def okInit : InitEnv :=
  { registerClass := true, screenWidth := 1920, createWindow := true, d2dFactory := true,
    dwFactory := true, textFormat := true }

/-- A platform that creates every device resource and draws without loss. -/
def okEnv : Env :=
  { clientSize := { width := 600, height := 400 }, createRenderTarget := true,
    createTextBrush := true, createBackgroundBrush := true, endDraw := HResult.S_OK }

/-- A platform on which `EndDraw` reports that the device is lost. -/
def lostEnv : Env :=
  { clientSize := { width := 600, height := 400 }, createRenderTarget := true,
    createTextBrush := true, createBackgroundBrush := true,
    endDraw := HResult.D2DERR_RECREATE_TARGET }

/-- A platform that fails to create the drawing surface. -/
def failEnv : Env :=
  { clientSize := { width := 600, height := 400 }, createRenderTarget := false,
    createTextBrush := true, createBackgroundBrush := true, endDraw := HResult.S_OK }

/-- The renderer after a fully successful `Initialize` on the UI thread. -/
def readyWorld : World :=
  (Initialize Thread.ui okInit okEnv World.start).2

/-- The program after a fully successful `Initialize` and `ipc.Start`. -/
def listeningWorld : World :=
  Start Thread.ui readyWorld

/-- The visibility operations of the state machine. -/
inductive VisOp where
  | Toggle
  | Show
  | Hide
  deriving DecidableEq, Repr

/-- The renderer call for a visibility operation. -/
def VisOp.toAction : VisOp → Action
  | VisOp.Toggle => Action.Toggle
  | VisOp.Show => Action.Show
  | VisOp.Hide => Action.Hide

/-- The fold function of the specification: Toggle negates the flag, Show sets it to
Visible (`true`), Hide sets it to Hidden (`false`). -/
def specVisibility (v : Bool) : VisOp → Bool
  | VisOp.Toggle => !v
  | VisOp.Show => true
  | VisOp.Hide => false

/-! # Theorems -/

/-! ## Basic facts -/

@[simp] theorem emit_overlay (t : Thread) (ev : Event) (w : World) :
    (emit t ev w).overlay = w.overlay := rfl

@[simp] theorem emit_ipc (t : Thread) (ev : Event) (w : World) :
    (emit t ev w).ipc = w.ipc := rfl

@[simp] theorem emit_log (t : Thread) (ev : Event) (w : World) :
    (emit t ev w).log = w.log ++ [(t, ev)] := rfl

theorem CreateDeviceResources_eq (t : Thread) (e : Env) (w : World) :
    CreateDeviceResources t e w =
      { overlay := createOverlay e w.overlay, ipc := w.ipc,
        log := w.log ++ createEvents t e w.overlay } := by
  obtain ⟨⟨hwnd, vis, txt, d2d, rt, tb, bb, dw, tf, d1, d2, d3⟩, ipc, log⟩ := w
  obtain ⟨sz, crt, ctb, cbb, hr⟩ := e
  cases rt <;> cases d2d <;> cases crt <;>
    simp [CreateDeviceResources, createOverlay, createEvents, emit]

theorem DiscardDeviceResources_eq (t : Thread) (w : World) :
    DiscardDeviceResources t w =
      { overlay := discardOverlay w.overlay, ipc := w.ipc,
        log := w.log ++ discardEvents t w.overlay } := by
  obtain ⟨⟨hwnd, vis, txt, d2d, rt, tb, bb, dw, tf, d1, d2, d3⟩, ipc, log⟩ := w
  cases rt <;> cases tb <;> cases bb <;>
    simp [DiscardDeviceResources, discardOverlay, discardEvents, emit]

theorem Render_eq (t : Thread) (e : Env) (w : World) :
    Render t e w =
      { overlay := renderOverlay e w.overlay, ipc := w.ipc,
        log := w.log ++ renderEvents t e w.overlay } := by
  have h0 : ∀ w0 : World, (if (!w0.overlay.renderTarget_) = true then
      CreateDeviceResources t e w0 else w0) = CreateDeviceResources t e w0 := by
    intro w0
    cases h : w0.overlay.renderTarget_ <;> simp [CreateDeviceResources, h]
  have h1 : Render t e w =
      (let w1 := CreateDeviceResources t e (emit t Event.render w)
       if !w1.overlay.renderTarget_ then w1
       else
        let w2 := emit t Event.beginDraw w1
        let w3 := emit t Event.clear w2
        let w4 := if w3.overlay.backgroundBrush_ then emit t Event.fillRectangle w3 else w3
        let w5 :=
          if w4.overlay.textBrush_ && w4.overlay.textFormat_ then
            emit t (Event.drawText w4.overlay.displayText_) w4
          else w4
        let w6 := emit t (Event.endDraw e.endDraw) w5
        if e.endDraw = HResult.D2DERR_RECREATE_TARGET then DiscardDeviceResources t w6
        else w6) := by
    unfold Render
    rw [← h0 (emit t Event.render w)]
  rw [h1, CreateDeviceResources_eq]
  cases h : (createOverlay e w.overlay).renderTarget_ <;>
    by_cases h2 : e.endDraw = HResult.D2DERR_RECREATE_TARGET <;>
    cases h3 : (createOverlay e w.overlay).backgroundBrush_ <;>
    cases h4 : (createOverlay e w.overlay).textBrush_ <;>
    cases h5 : (createOverlay e w.overlay).textFormat_ <;>
    simp [h, h2, h3, h4, h5, emit, DiscardDeviceResources_eq, renderOverlay, renderEvents,
      drawEvents, discardEvents]

/-! ### Fields that rendering leaves alone -/

@[simp] theorem createOverlay_visible (e : Env) (o : OverlayWindow) :
    (createOverlay e o).visible_ = o.visible_ := by
  unfold createOverlay; split_ifs <;> rfl

@[simp] theorem createOverlay_displayText (e : Env) (o : OverlayWindow) :
    (createOverlay e o).displayText_ = o.displayText_ := by
  unfold createOverlay; split_ifs <;> rfl

@[simp] theorem createOverlay_textFormat (e : Env) (o : OverlayWindow) :
    (createOverlay e o).textFormat_ = o.textFormat_ := by
  unfold createOverlay; split_ifs <;> rfl

@[simp] theorem createOverlay_d2dFactory (e : Env) (o : OverlayWindow) :
    (createOverlay e o).d2dFactory_ = o.d2dFactory_ := by
  unfold createOverlay; split_ifs <;> rfl

@[simp] theorem renderOverlay_visible (e : Env) (o : OverlayWindow) :
    (renderOverlay e o).visible_ = o.visible_ := by
  unfold renderOverlay discardOverlay; split_ifs <;> simp

@[simp] theorem renderOverlay_displayText (e : Env) (o : OverlayWindow) :
    (renderOverlay e o).displayText_ = o.displayText_ := by
  unfold renderOverlay discardOverlay; split_ifs <;> simp

@[simp] theorem renderOverlay_textFormat (e : Env) (o : OverlayWindow) :
    (renderOverlay e o).textFormat_ = o.textFormat_ := by
  unfold renderOverlay discardOverlay; split_ifs <;> simp

@[simp] theorem renderOverlay_d2dFactory (e : Env) (o : OverlayWindow) :
    (renderOverlay e o).d2dFactory_ = o.d2dFactory_ := by
  unfold renderOverlay discardOverlay; split_ifs <;> simp

/-! ### The operations in closed form -/

theorem Show_eq (t : Thread) (e : Env) (w : World) :
    Show t e w =
      { overlay := renderOverlay e { w.overlay with visible_ := true }, ipc := w.ipc,
        log := w.log ++ ((t, Event.showWindow true) :: (t, Event.updateWindow) ::
          renderEvents t e { w.overlay with visible_ := true }) } := by
  simp [Show, Render_eq, emit]

theorem Hide_eq (t : Thread) (w : World) :
    Hide t w =
      { overlay := { w.overlay with visible_ := false }, ipc := w.ipc,
        log := w.log ++ [(t, Event.showWindow false)] } := by
  simp [Hide, emit]

theorem UpdateText_eq (t : Thread) (e : Env) (text : String) (w : World) :
    UpdateText t e text w =
      if w.overlay.visible_ then
        { overlay := renderOverlay e { w.overlay with displayText_ := text }, ipc := w.ipc,
          log := w.log ++ renderEvents t e { w.overlay with displayText_ := text } }
      else { w with overlay := { w.overlay with displayText_ := text } } := by
  simp [UpdateText, Render_eq]

theorem Resize_eq (t : Thread) (e : Env) (w : World) :
    Resize t e w =
      if w.overlay.renderTarget_ then
        { overlay := renderOverlay e w.overlay, ipc := w.ipc,
          log := w.log ++ ((t, Event.getClientRect) :: (t, Event.resizeTarget e.clientSize) ::
            renderEvents t e w.overlay) }
      else w := by
  simp [Resize, Render_eq, emit]

/-! ### Counting in the calls of `Render` -/

theorem renderCount_append (a b : List (Thread × Event)) :
    renderCount (a ++ b) = renderCount a + renderCount b := by
  simp [renderCount]

theorem drawnTexts_append (a b : List (Thread × Event)) :
    drawnTexts (a ++ b) = drawnTexts a ++ drawnTexts b := by
  induction a with
  | nil => rfl
  | cons x xs ih =>
    obtain ⟨t, ev⟩ := x
    cases ev <;> simp [drawnTexts, ih]

theorem createEvents_calls (t : Thread) (e : Env) (o : OverlayWindow) :
    ∀ c ∈ createEvents t e o, renderCall t o.displayText_ c ∧ c.2 ≠ Event.render ∧
      isDraw c.2 = false := by
  unfold createEvents
  split_ifs <;> simp [renderCall, isDraw]

theorem drawEvents_calls (t : Thread) (e : Env) (o : OverlayWindow) :
    ∀ c ∈ drawEvents t e o, renderCall t o.displayText_ c ∧ c.2 ≠ Event.render := by
  unfold drawEvents
  split_ifs <;> simp [renderCall]

theorem discardEvents_calls (t : Thread) (txt : String) (o : OverlayWindow) :
    ∀ c ∈ discardEvents t o, renderCall t txt c ∧ c.2 ≠ Event.render ∧ isDraw c.2 = false := by
  unfold discardEvents
  split_ifs <;> simp [renderCall, isDraw]

theorem renderEvents_calls (t : Thread) (e : Env) (o : OverlayWindow) :
    ∀ c ∈ renderEvents t e o, renderCall t o.displayText_ c := by
  intro c hc
  unfold renderEvents at hc
  rcases List.mem_cons.1 hc with h | h
  · subst h; simp [renderCall]
  · rcases List.mem_append.1 h with h | h
    · exact (createEvents_calls t e o c h).1
    · split_ifs at h with h1 h2
      · rcases List.mem_append.1 h with h | h
        · simpa using (drawEvents_calls t e (createOverlay e o) c h).1
        · exact (discardEvents_calls t o.displayText_ (createOverlay e o) c h).1
      · rw [List.append_nil] at h
        simpa using (drawEvents_calls t e (createOverlay e o) c h).1
      · simp at h

theorem renderCount_eq_zero (l : List (Thread × Event)) (h : ∀ c ∈ l, c.2 ≠ Event.render) :
    renderCount l = 0 := by
  unfold renderCount
  rw [List.countP_eq_zero]
  intro c hc
  simpa using h c hc

theorem renderCount_renderEvents (t : Thread) (e : Env) (o : OverlayWindow) :
    renderCount (renderEvents t e o) = 1 := by
  have h : renderCount (createEvents t e o ++
      (if (createOverlay e o).renderTarget_ then
        drawEvents t e (createOverlay e o) ++
          (if e.endDraw = HResult.D2DERR_RECREATE_TARGET then
            discardEvents t (createOverlay e o) else [])
       else [])) = 0 := by
    apply renderCount_eq_zero
    intro c hc
    rcases List.mem_append.1 hc with h | h
    · exact (createEvents_calls t e o c h).2.1
    · split_ifs at h with h1 h2
      · rcases List.mem_append.1 h with h | h
        · exact (drawEvents_calls t e _ c h).2
        · exact (discardEvents_calls t "" _ c h).2.1
      · rw [List.append_nil] at h
        exact (drawEvents_calls t e _ c h).2
      · simp at h
  unfold renderEvents
  unfold renderCount at h ⊢
  rw [List.countP_cons, h]
  simp

theorem drawnTexts_subset (l : List (Thread × Event)) (txt : String)
    (h : ∀ c ∈ l, ∀ s, c.2 = Event.drawText s → s = txt) : ∀ s ∈ drawnTexts l, s = txt := by
  induction l with
  | nil => intro s hs; simp [drawnTexts] at hs
  | cons x xs ih =>
    obtain ⟨t, ev⟩ := x
    have ih2 := ih (fun c hc => h c (List.mem_cons_of_mem _ hc))
    cases ev <;> simp only [drawnTexts] <;> try exact ih2
    rename_i text
    intro s hs
    rcases List.mem_cons.1 hs with h1 | h1
    · subst h1
      exact h (t, Event.drawText s) (List.mem_cons_self _ _) s rfl
    · exact ih2 s h1

theorem drawnTexts_renderEvents_subset (t : Thread) (e : Env) (o : OverlayWindow) :
    ∀ s ∈ drawnTexts (renderEvents t e o), s = o.displayText_ :=
  drawnTexts_subset _ _ (fun c hc => (renderEvents_calls t e o c hc).2.2.1)

theorem drawnTexts_eq_nil (l : List (Thread × Event)) (h : ∀ c ∈ l, isDraw c.2 = false) :
    drawnTexts l = [] := by
  induction l with
  | nil => rfl
  | cons x xs ih =>
    obtain ⟨t, ev⟩ := x
    have h0 := h (t, ev) (List.mem_cons_self _ _)
    have ih2 := ih (fun c hc => h c (List.mem_cons_of_mem _ hc))
    cases ev <;> simp_all [drawnTexts, isDraw]

/-- With surface, text brush and text format at hand, `Render` draws the text once. -/
theorem drawnTexts_renderEvents_ready (t : Thread) (e : Env) (o : OverlayWindow)
    (h1 : o.renderTarget_ = true) (h2 : o.textBrush_ = true) (h3 : o.textFormat_ = true) :
    drawnTexts (renderEvents t e o) = [o.displayText_] := by
  have hc : createOverlay e o = o := by simp [createOverlay, h1]
  have hd : drawnTexts (discardEvents t o) = [] :=
    drawnTexts_eq_nil _ (fun c h => (discardEvents_calls t "" o c h).2.2)
  unfold renderEvents
  rw [hc]
  simp only [createEvents, h1, if_true, List.nil_append, drawEvents, h2, h3, Bool.and_self]
  cases o.backgroundBrush_ <;> by_cases h4 : e.endDraw = HResult.D2DERR_RECREATE_TARGET <;>
    simp [drawnTexts, drawnTexts_append, hd, h4]

/-! ## Runs -/

theorem exec_nil (w : World) : exec [] w = w := rfl

theorem exec_cons (a : Thread × Env × Action) (as : List (Thread × Env × Action)) (w : World) :
    exec (a :: as) w = exec as (step a.1 a.2.1 a.2.2 w) := rfl

theorem exec_append (as bs : List (Thread × Env × Action)) (w : World) :
    exec (as ++ bs) w = exec bs (exec as w) := by
  simp [exec, List.foldl_append]

theorem Toggle_eq (t : Thread) (e : Env) (w : World) :
    Toggle t e w = if w.overlay.visible_ then Hide t w else Show t e w := rfl

theorem Initialize_visible (t : Thread) (ie : InitEnv) (e : Env) (w : World) :
    (Initialize t ie e w).2.overlay.visible_ = w.overlay.visible_ := by
  obtain ⟨rc, sw, cw, d2d, dw, tf⟩ := ie
  cases rc <;> cases cw <;> cases dw <;> cases tf <;>
    simp [Initialize, CreateDeviceResources_eq]

theorem step_visible (t : Thread) (e : Env) (op : VisOp) (w : World) :
    (step t e op.toAction w).overlay.visible_ = specVisibility w.overlay.visible_ op := by
  cases op
  · cases h : w.overlay.visible_ <;>
      simp [step, VisOp.toAction, specVisibility, Toggle_eq, Show_eq, Hide_eq, h]
  · simp [step, VisOp.toAction, specVisibility, Show_eq]
  · simp [step, VisOp.toAction, specVisibility, Hide_eq]

theorem exec_visible (ops : List (Thread × Env × VisOp)) (w : World) :
    (exec (ops.map (fun o => (o.1, o.2.1, o.2.2.toAction))) w).overlay.visible_ =
      (ops.map (fun o => o.2.2)).foldl specVisibility w.overlay.visible_ := by
  induction ops generalizing w with
  | nil => rfl
  | cons o os ih =>
    simp only [List.map_cons, exec_cons, List.foldl_cons]
    rw [ih, step_visible]

/-- C2: from the state after construction and `Initialize` (Visible), the visibility
flag after any finite sequence of Toggle/Show/Hide calls, on any thread and whatever the
platform answers, is the left fold of the sequence over Visible, Toggle negating the
flag, Show setting it and Hide clearing it. -/
theorem C2_visibility_is_left_fold (ie : InitEnv) (e0 : Env)
    (ops : List (Thread × Env × VisOp)) :
    (exec (ops.map (fun o => (o.1, o.2.1, o.2.2.toAction)))
        (Initialize Thread.ui ie e0 World.start).2).overlay.visible_ =
      (ops.map (fun o => o.2.2)).foldl specVisibility true := by
  rw [exec_visible, Initialize_visible]
  rfl

/-! ## The listener -/

/-- C1 (as stated, refuted): the empty line delivers nothing.  After a successful start
the listener reads an empty line: the program state, log included, is what it was, and
the displayed text is still the initial text, not the empty string. -/
theorem C1_empty_line_delivers_nothing :
    ListenLoop [(okEnv, some "")] listeningWorld = listeningWorld ∧
      (ListenLoop [(okEnv, some "")] listeningWorld).overlay.displayText_ =
        "IntraView HUD Ready" ∧
      (ListenLoop [(okEnv, some "")] listeningWorld).overlay.displayText_ ≠ "" := by
  decide

/-- C1 (amended): once the callback is installed, a non-empty line makes the listener
call the callback exactly once, and the callback makes exactly one call: `Toggle`,
`Show`, `Hide` or `PostQuitMessage` when the line is exactly `toggle`, `show`, `hide`
or `exit`, and `UpdateText` with the line verbatim otherwise, after which the displayed
text is that line.  `Show` and ` show` are text.  The empty line is dropped: the state
is unchanged. -/
theorem C1_listener_dispatch (e : Env) (line : String) (w : World)
    (hcb : w.ipc.callback_ = true) :
    (line = "toggle" → ListenLoopBody e (some line) w = Toggle Thread.listener e w) ∧
    (line = "show" → ListenLoopBody e (some line) w = Show Thread.listener e w) ∧
    (line = "hide" → ListenLoopBody e (some line) w = Hide Thread.listener w) ∧
    (line = "exit" →
      ListenLoopBody e (some line) w = emit Thread.listener Event.postQuitMessage w) ∧
    (line ≠ "" → line ≠ "toggle" → line ≠ "show" → line ≠ "hide" → line ≠ "exit" →
      ListenLoopBody e (some line) w = UpdateText Thread.listener e line w ∧
      (ListenLoopBody e (some line) w).overlay.displayText_ = line) ∧
    ListenLoopBody e (some "Show") w = UpdateText Thread.listener e "Show" w ∧
    ListenLoopBody e (some " show") w = UpdateText Thread.listener e " show" w ∧
    ListenLoopBody e (some "") w = w := by
  refine ⟨?_, ?_, ?_, ?_, ?_, ?_, ?_, ?_⟩
  · rintro rfl
    simp [ListenLoopBody, ReadLine, messageCallback, hcb]
  · rintro rfl
    simp [ListenLoopBody, ReadLine, messageCallback, hcb]
  · rintro rfl
    simp [ListenLoopBody, ReadLine, messageCallback, hcb]
  · rintro rfl
    simp [ListenLoopBody, ReadLine, messageCallback, hcb]
  · intro h0 h1 h2 h3 h4
    have h : ListenLoopBody e (some line) w = UpdateText Thread.listener e line w := by
      simp [ListenLoopBody, ReadLine, messageCallback, hcb, h0, h1, h2, h3, h4]
    refine ⟨h, ?_⟩
    rw [h, UpdateText_eq]
    split_ifs <;> simp
  · simp [ListenLoopBody, ReadLine, messageCallback, hcb]
  · simp [ListenLoopBody, ReadLine, messageCallback, hcb]
  · simp [ListenLoopBody, ReadLine]

/-- C1 (amended), at the line `hello` read after a successful start. -/
theorem C1_listener_dispatch_witness :
    listeningWorld.ipc.callback_ = true ∧
      ListenLoopBody okEnv (some "hello") listeningWorld =
        UpdateText Thread.listener okEnv "hello" listeningWorld ∧
      (ListenLoopBody okEnv (some "hello") listeningWorld).overlay.displayText_ = "hello" :=
  ⟨by decide,
    (C1_listener_dispatch okEnv "hello" listeningWorld (by decide)).2.2.2.2.1
      (by decide) (by decide) (by decide) (by decide) (by decide)⟩

/-! ## What one operation appends to the log -/

theorem WindowProc_eq (t : Thread) (e : Env) (uMsg : Msg) (w : World) :
    WindowProc t e true uMsg w =
      match uMsg with
      | Msg.WM_PAINT =>
        { overlay := renderOverlay e w.overlay, ipc := w.ipc,
          log := w.log ++ (renderEvents t e w.overlay ++ [(t, Event.validateRect)]) }
      | Msg.WM_DISPLAYCHANGE =>
        { overlay := renderOverlay e w.overlay, ipc := w.ipc,
          log := w.log ++ (renderEvents t e w.overlay ++ [(t, Event.validateRect)]) }
      | Msg.WM_SIZE => Resize t e w
      | Msg.WM_DESTROY => emit t Event.postQuitMessage w
      | Msg.other => emit t Event.defWindowProc w := by
  cases uMsg <;> simp [WindowProc, Render_eq, emit]

/-- Every operation keeps the listener's fields and only appends to the log, calls made
on the calling thread; apart from `WM_DESTROY` none of them is `PostQuitMessage`. -/
theorem step_log (t : Thread) (e : Env) (a : Action) (w : World) :
    (step t e a w).ipc = w.ipc ∧
    ∃ evs, (step t e a w).log = w.log ++ evs ∧ (∀ c ∈ evs, c.1 = t) ∧
      (a ≠ Action.Message Msg.WM_DESTROY → ∀ c ∈ evs, c.2 ≠ Event.postQuitMessage) := by
  have hr : ∀ o : OverlayWindow, ∀ c ∈ renderEvents t e o,
      c.1 = t ∧ c.2 ≠ Event.postQuitMessage :=
    fun o c hc => ⟨(renderEvents_calls t e o c hc).1, (renderEvents_calls t e o c hc).2.1⟩
  have hshow : (Show t e w).ipc = w.ipc ∧
      ∃ evs, (Show t e w).log = w.log ++ evs ∧ (∀ c ∈ evs, c.1 = t) ∧
        ∀ c ∈ evs, c.2 ≠ Event.postQuitMessage := by
    rw [Show_eq]
    refine ⟨rfl, _, rfl, ?_, ?_⟩ <;>
      · intro c hc
        simp only [List.mem_cons] at hc
        rcases hc with rfl | rfl | hc
        · simp
        · simp
        · first | exact (hr _ c hc).1 | exact (hr _ c hc).2
  have hhide : (Hide t w).ipc = w.ipc ∧
      ∃ evs, (Hide t w).log = w.log ++ evs ∧ (∀ c ∈ evs, c.1 = t) ∧
        ∀ c ∈ evs, c.2 ≠ Event.postQuitMessage := by
    rw [Hide_eq]
    exact ⟨rfl, _, rfl, by simp, by simp⟩
  have hrender : (WindowProc t e true Msg.WM_PAINT w).ipc = w.ipc ∧
      ∃ evs, (WindowProc t e true Msg.WM_PAINT w).log = w.log ++ evs ∧ (∀ c ∈ evs, c.1 = t) ∧
        ∀ c ∈ evs, c.2 ≠ Event.postQuitMessage := by
    rw [WindowProc_eq]
    refine ⟨rfl, _, rfl, ?_, ?_⟩ <;>
      · intro c hc
        rcases List.mem_append.1 hc with hc | hc
        · first | exact (hr _ c hc).1 | exact (hr _ c hc).2
        · simp at hc; subst hc; simp
  cases a with
  | Toggle =>
    have hs : step t e Action.Toggle w =
        (if w.overlay.visible_ then Hide t w else Show t e w) := rfl
    rw [hs]
    cases h : w.overlay.visible_
    · obtain ⟨h1, evs, h2, h3, h4⟩ := hshow
      exact ⟨h1, evs, h2, h3, fun _ => h4⟩
    · obtain ⟨h1, evs, h2, h3, h4⟩ := hhide
      exact ⟨h1, evs, h2, h3, fun _ => h4⟩
  | Show =>
    obtain ⟨h1, evs, h2, h3, h4⟩ := hshow
    exact ⟨h1, evs, h2, h3, fun _ => h4⟩
  | Hide =>
    obtain ⟨h1, evs, h2, h3, h4⟩ := hhide
    exact ⟨h1, evs, h2, h3, fun _ => h4⟩
  | UpdateText text =>
    have hs : step t e (Action.UpdateText text) w = UpdateText t e text w := rfl
    rw [hs, UpdateText_eq]
    cases h : w.overlay.visible_
    · exact ⟨rfl, [], by simp, by simp, by simp⟩
    · exact ⟨rfl, _, rfl, fun c hc => (hr _ c hc).1, fun _ c hc => (hr _ c hc).2⟩
  | Message uMsg =>
    cases uMsg with
    | WM_PAINT =>
      obtain ⟨h1, evs, h2, h3, h4⟩ := hrender
      exact ⟨h1, evs, h2, h3, fun _ => h4⟩
    | WM_DISPLAYCHANGE =>
      obtain ⟨h1, evs, h2, h3, h4⟩ := hrender
      exact ⟨h1, evs, h2, h3, fun _ => h4⟩
    | WM_SIZE =>
      have hs : step t e (Action.Message Msg.WM_SIZE) w = Resize t e w := rfl
      rw [hs, Resize_eq]
      cases h : w.overlay.renderTarget_
      · exact ⟨rfl, [], by simp, by simp, by simp⟩
      · refine ⟨rfl, _, rfl, ?_, fun _ => ?_⟩ <;>
          · intro c hc
            simp only [List.mem_cons] at hc
            rcases hc with rfl | rfl | hc
            · simp
            · simp
            · first | exact (hr _ c hc).1 | exact (hr _ c hc).2
    | WM_DESTROY =>
      exact ⟨rfl, [(t, Event.postQuitMessage)], rfl, by simp, fun h => absurd rfl h⟩
    | other =>
      exact ⟨rfl, [(t, Event.defWindowProc)], rfl, by simp, by simp⟩

/-- The callback of `main` is one renderer operation, or `PostQuitMessage` for `exit`. -/
theorem messageCallback_eq (t : Thread) (e : Env) (message : String) (w : World) :
    messageCallback t e message w =
      if message = "exit" then emit t Event.postQuitMessage w
      else step t e
        (if message = "toggle" then Action.Toggle
         else if message = "show" then Action.Show
         else if message = "hide" then Action.Hide
         else Action.UpdateText message) w := by
  unfold messageCallback
  by_cases h1 : message = "toggle"
  · subst h1; simp [step]
  · by_cases h2 : message = "show"
    · subst h2; simp [step]
    · by_cases h3 : message = "hide"
      · subst h3; simp [step]
      · by_cases h4 : message = "exit"
        · subst h4; simp
        · simp [h1, h2, h3, h4, step]

/-- The callback keeps the listener's fields and appends only calls made on the thread
that runs it. -/
theorem messageCallback_log (t : Thread) (e : Env) (message : String) (w : World) :
    (messageCallback t e message w).ipc = w.ipc ∧
    ∃ evs, (messageCallback t e message w).log = w.log ++ evs ∧ ∀ c ∈ evs, c.1 = t := by
  rw [messageCallback_eq]
  by_cases h : message = "exit"
  · rw [if_pos h]
    exact ⟨rfl, _, rfl, by simp⟩
  · rw [if_neg h]
    obtain ⟨h1, evs, h2, h3, _⟩ := step_log t e
      (if message = "toggle" then Action.Toggle
         else if message = "show" then Action.Show
         else if message = "hide" then Action.Hide
         else Action.UpdateText message) w
    exact ⟨h1, evs, h2, h3⟩

/-! ## The listener thread -/

/-- One pass of the listener's loop keeps the callback, and appends only calls made on
the listener thread. -/
theorem ListenLoopBody_log (e : Env) (input : Option String) (w : World) :
    (ListenLoopBody e input w).ipc.callback_ = w.ipc.callback_ ∧
    ∃ evs, (ListenLoopBody e input w).log = w.log ++ evs ∧
      ∀ c ∈ evs, c.1 = Thread.listener := by
  cases input with
  | none => exact ⟨by simp [ListenLoopBody, ReadLine], [], by simp [ListenLoopBody, ReadLine]⟩
  | some line =>
    by_cases h : line ≠ "" ∧ w.ipc.callback_ = true
    · have hb : ListenLoopBody e (some line) w = messageCallback Thread.listener e line w := by
        simp only [ListenLoopBody, ReadLine]
        rw [if_pos h]
      obtain ⟨h1, evs, h2, h3⟩ := messageCallback_log Thread.listener e line w
      rw [hb, h1]
      exact ⟨rfl, evs, h2, h3⟩
    · have hb : ListenLoopBody e (some line) w = w := by
        simp only [ListenLoopBody, ReadLine]
        rw [if_neg h]
      rw [hb]
      exact ⟨rfl, [], by simp, by simp⟩

/-- While lines keep coming the listener keeps running: a line leaves `running_` as it
was. -/
theorem ListenLoopBody_running (e : Env) (line : String) (w : World) :
    (ListenLoopBody e (some line) w).ipc.running_ = w.ipc.running_ := by
  by_cases h : line ≠ "" ∧ w.ipc.callback_ = true
  · have hb : ListenLoopBody e (some line) w = messageCallback Thread.listener e line w := by
      simp only [ListenLoopBody, ReadLine]
      rw [if_pos h]
    rw [hb, (messageCallback_log Thread.listener e line w).1]
  · have hb : ListenLoopBody e (some line) w = w := by
      simp only [ListenLoopBody, ReadLine]
      rw [if_neg h]
    rw [hb]

/-- C10 (as stated, refuted): the listener thread calls the renderer.  After a
successful start the line `hide`, read by `ListenLoop` on the listener thread, clears the
visibility flag and hides the window, and the line `hello` sets the displayed text and
draws it: every one of these calls is made by the listener thread. -/
theorem C10_listener_thread_mutates_renderer :
    listeningWorld.overlay.visible_ = true ∧
    (ListenLoop [(okEnv, some "hide")] listeningWorld).overlay.visible_ = false ∧
    (ListenLoop [(okEnv, some "hide")] listeningWorld).log =
      listeningWorld.log ++ [(Thread.listener, Event.showWindow false)] ∧
    (ListenLoop [(okEnv, some "hello")] listeningWorld).overlay.displayText_ = "hello" ∧
    (ListenLoop [(okEnv, some "hello")] listeningWorld).log =
      listeningWorld.log ++
        [(Thread.listener, Event.render), (Thread.listener, Event.beginDraw),
          (Thread.listener, Event.clear), (Thread.listener, Event.fillRectangle),
          (Thread.listener, Event.drawText "hello"),
          (Thread.listener, Event.endDraw HResult.S_OK)] := by
  decide

/-- For a line other than `exit` the callback is the renderer operation of that line. -/
theorem messageCallback_step (t : Thread) (e : Env) (line : String) (w : World)
    (h : line ≠ "exit") : messageCallback t e line w = step t e (lineAction line) w := by
  rw [messageCallback_eq, if_neg h]
  rfl

/-- C10 (amended): the listener thread calls the renderer itself.  With the callback
installed and the listener running, reading lines none of which is `exit` makes
`ListenLoop`, the body of the listener thread, perform for every non-empty line the
renderer operation of that line (`Toggle`, `Show`, `Hide` for `toggle`, `show`, `hide`,
`UpdateText` with the line otherwise), in the order the lines are read and each before
the next line is read; empty lines are skipped.  Every call this makes, of the renderer
and of the platform, is made on the listener thread. -/
theorem C10_listener_applies_commands_itself (reads : List (Env × String)) (w : World)
    (hcb : w.ipc.callback_ = true) (hrun : w.ipc.running_ = true)
    (hex : ∀ r ∈ reads, r.2 ≠ "exit") :
    ListenLoop (reads.map (fun r => (r.1, some r.2))) w =
      exec ((reads.filter (fun r => decide (r.2 ≠ ""))).map
        (fun r => (Thread.listener, r.1, lineAction r.2))) w ∧
    ∃ evs, (ListenLoop (reads.map (fun r => (r.1, some r.2))) w).log = w.log ++ evs ∧
      ∀ c ∈ evs, c.1 = Thread.listener := by
  induction reads generalizing w with
  | nil => exact ⟨rfl, [], by simp [ListenLoop], by simp⟩
  | cons r rs ih =>
    obtain ⟨h1, evs, h2, h3⟩ := ListenLoopBody_log r.1 (some r.2) w
    have h4 := ListenLoopBody_running r.1 r.2 w
    obtain ⟨ih1, evs2, ih2, ih3⟩ := ih (ListenLoopBody r.1 (some r.2) w)
      (by rw [h1, hcb]) (by rw [h4, hrun]) (fun x hx => hex x (List.mem_cons_of_mem _ hx))
    have hl : ListenLoop ((r :: rs).map (fun r => (r.1, some r.2))) w =
        ListenLoop (rs.map (fun r => (r.1, some r.2))) (ListenLoopBody r.1 (some r.2) w) := by
      simp [ListenLoop, hrun]
    have hr := hex r (List.mem_cons_self _ _)
    rw [hl]
    refine ⟨?_, evs ++ evs2, ?_, ?_⟩
    · rw [ih1]
      by_cases h : r.2 = ""
      · have hb : ListenLoopBody r.1 (some r.2) w = w := by
          simp [ListenLoopBody, ReadLine, h]
        rw [hb, List.filter_cons_of_neg (by simp [h])]
      · have hb : ListenLoopBody r.1 (some r.2) w =
            step Thread.listener r.1 (lineAction r.2) w := by
          rw [← messageCallback_step Thread.listener r.1 r.2 w hr]
          simp [ListenLoopBody, ReadLine, h, hcb]
        rw [hb, List.filter_cons_of_pos (by simp [h]), List.map_cons, exec_cons]
    · rw [ih2, h2, List.append_assoc]
    · intro c hc
      rcases List.mem_append.1 hc with hc | hc
      · exact h3 c hc
      · exact ih3 c hc

/-- C10 (amended), at the lines `hello`, an empty line and `toggle` read after a
successful start. -/
theorem C10_listener_applies_commands_itself_witness :
    listeningWorld.ipc.callback_ = true ∧ listeningWorld.ipc.running_ = true ∧
    ListenLoop [(okEnv, some "hello"), (okEnv, some ""), (okEnv, some "toggle")]
        listeningWorld =
      exec [(Thread.listener, okEnv, Action.UpdateText "hello"),
        (Thread.listener, okEnv, Action.Toggle)] listeningWorld :=
  ⟨by decide, by decide,
    (C10_listener_applies_commands_itself [(okEnv, "hello"), (okEnv, ""), (okEnv, "toggle")]
      listeningWorld (by decide) (by decide) (by decide)).1⟩

/-! ## The message loop -/

theorem quitPosted_append (t : Thread) (w w2 : World) (evs : List (Thread × Event))
    (hl : w2.log = w.log ++ evs) (hq : quitPosted t w = false)
    (h : ∀ c ∈ evs, c.1 = t → c.2 ≠ Event.postQuitMessage) : quitPosted t w2 = false := by
  unfold quitPosted at hq ⊢
  rw [decide_eq_false_iff_not] at hq ⊢
  rw [hl]
  intro hm
  rcases List.mem_append.1 hm with hm | hm
  · exact hq hm
  · exact h _ hm rfl rfl

/-- No input other than `WM_DESTROY` puts `WM_QUIT` into the UI thread's queue. -/
theorem deliver_keeps_ui_queue (e : Env) (i : Input) (w : World)
    (hi : i ≠ Input.message Msg.WM_DESTROY) (hq : quitPosted Thread.ui w = false) :
    quitPosted Thread.ui (deliver e i w) = false := by
  cases i with
  | stdin input =>
    by_cases hr : w.ipc.running_ = true
    · obtain ⟨_, evs, h2, h3⟩ := ListenLoopBody_log e input w
      have hd : deliver e (Input.stdin input) w = ListenLoopBody e input w := by
        simp [deliver, hr]
      rw [hd]
      refine quitPosted_append _ w _ evs h2 hq ?_
      intro c hc hui
      rw [h3 c hc] at hui
      exact absurd hui (by decide)
    · have hd : deliver e (Input.stdin input) w = w := by
        simp [deliver, hr]
      rw [hd]; exact hq
  | message uMsg =>
    obtain ⟨_, evs, h2, _, h4⟩ := step_log Thread.ui e (Action.Message uMsg) w
    have hd : deliver e (Input.message uMsg) w = step Thread.ui e (Action.Message uMsg) w := rfl
    rw [hd]
    refine quitPosted_append _ w _ evs h2 hq ?_
    intro c hc _
    exact h4 (fun h => hi (by injection h with h; rw [h])) c hc

/-- The loop of `Run` does not end on any inputs without `WM_DESTROY`, whatever lines
(`exit` among them) the listener reads. -/
theorem messageLoop_waits (inputs : List (Env × Input)) (w : World)
    (hq : quitPosted Thread.ui w = false)
    (h : ∀ x ∈ inputs, x.2 ≠ Input.message Msg.WM_DESTROY) : messageLoop inputs w = none := by
  induction inputs generalizing w with
  | nil => simp [messageLoop, hq]
  | cons x xs ih =>
    obtain ⟨e, i⟩ := x
    simp only [messageLoop, hq]
    exact ih _ (deliver_keeps_ui_queue e i w (h (e, i) (List.mem_cons_self _ _)) hq)
      (fun y hy => h y (List.mem_cons_of_mem _ hy))

/-- C6 (the code at the failing input): after a successful start the listener reads
`exit`.  `PostQuitMessage` is called on the listener thread, so `WM_QUIT` is in the
listener's queue and not in the UI thread's: `Run` does not return and `main` does not
reach `Stop`, `Shutdown` or `return 0`, also when further lines and window messages
follow.  A `WM_DESTROY` dispatched on the UI thread does end the loop; `main` then
waits in `Stop` for the listener's pending read and, once standard input ends or yields a
line, returns with exit code 0. -/
theorem C6_exit_line_does_not_end_Run :
    quitPosted Thread.listener
      (deliver okEnv (Input.stdin (some "exit")) listeningWorld) = true ∧
    quitPosted Thread.ui
      (deliver okEnv (Input.stdin (some "exit")) listeningWorld) = false ∧
    Run okEnv [(okEnv, Input.stdin (some "exit"))] listeningWorld = none ∧
    main okInit okEnv okEnv [(okEnv, Input.stdin (some "exit"))] = none ∧
    main okInit okEnv okEnv
      [(okEnv, Input.stdin (some "exit")), (okEnv, Input.message Msg.WM_PAINT),
        (okEnv, Input.stdin (some "exit")), (okEnv, Input.message Msg.other)] = none ∧
    (main okInit okEnv okEnv
      [(okEnv, Input.message Msg.WM_DESTROY), (okEnv, Input.stdin none)]).map
        (fun r => r.1) = some 0 ∧
    (main okInit okEnv okEnv
      [(okEnv, Input.message Msg.WM_DESTROY), (okEnv, Input.stdin (some "exit"))]).map
        (fun r => r.1) = some 0 ∧
    main okInit okEnv okEnv [(okEnv, Input.message Msg.WM_DESTROY)] = none := by
  decide

/-! ## Rendering and visibility -/

/-- A renderer operation (not a window message) that ends in Hidden has drawn nothing:
`Show` sets the flag before it renders, `Hide` does not render, `UpdateText` renders only
when the flag is set. -/
theorem command_draws_only_when_visible (t : Thread) (e : Env) (a : Action) (w : World)
    (ha : ∀ uMsg, a ≠ Action.Message uMsg)
    (hv : (step t e a w).overlay.visible_ = false) :
    ∃ evs, (step t e a w).log = w.log ++ evs ∧ drawCalls evs = [] := by
  have hshow : (Show t e w).overlay.visible_ = true := by rw [Show_eq]; simp
  cases a with
  | Toggle =>
    have hs : step t e Action.Toggle w =
        (if w.overlay.visible_ then Hide t w else Show t e w) := rfl
    rw [hs] at hv ⊢
    cases h : w.overlay.visible_
    · rw [h] at hv
      simp only [Bool.false_eq_true, if_false] at hv
      rw [hshow] at hv
      exact absurd hv (by decide)
    · exact ⟨[(t, Event.showWindow false)], by simp [Hide_eq], rfl⟩
  | Show =>
    have hs : step t e Action.Show w = Show t e w := rfl
    rw [hs, hshow] at hv
    exact absurd hv (by decide)
  | Hide => exact ⟨[(t, Event.showWindow false)], by simp [step, Hide_eq], rfl⟩
  | UpdateText text =>
    have hs : step t e (Action.UpdateText text) w = UpdateText t e text w := rfl
    have hvis : (UpdateText t e text w).overlay.visible_ = w.overlay.visible_ := by
      rw [UpdateText_eq]; split_ifs <;> simp
    rw [hs] at hv ⊢
    rw [hvis] at hv
    rw [UpdateText_eq, hv]
    exact ⟨[], by simp, rfl⟩
  | Message uMsg => exact absurd rfl (ha uMsg)

/-- C3 (the code at the failing input): a window notification renders while Hidden.
After a successful `Initialize`, `Hide` is called and then a display-configuration-changed
notification arrives: `WindowProc` calls `Render`, which does not look at `visible_`, and
the surface is cleared, filled and drawn on while the state is Hidden.  The same happens
for paint and size-changed notifications. -/
theorem C3_notification_renders_while_hidden :
    (Hide Thread.listener readyWorld).overlay.visible_ = false ∧
    (WindowProc Thread.ui okEnv true Msg.WM_DISPLAYCHANGE
      (Hide Thread.listener readyWorld)).overlay.visible_ = false ∧
    (WindowProc Thread.ui okEnv true Msg.WM_DISPLAYCHANGE
      (Hide Thread.listener readyWorld)).log =
      (Hide Thread.listener readyWorld).log ++
        [(Thread.ui, Event.render), (Thread.ui, Event.beginDraw), (Thread.ui, Event.clear),
          (Thread.ui, Event.fillRectangle), (Thread.ui, Event.drawText "IntraView HUD Ready"),
          (Thread.ui, Event.endDraw HResult.S_OK), (Thread.ui, Event.validateRect)] ∧
    (WindowProc Thread.ui okEnv true Msg.WM_PAINT (Hide Thread.listener readyWorld)).log =
      (WindowProc Thread.ui okEnv true Msg.WM_DISPLAYCHANGE
        (Hide Thread.listener readyWorld)).log ∧
    (WindowProc Thread.ui okEnv true Msg.WM_SIZE (Hide Thread.listener readyWorld)).log =
      (Hide Thread.listener readyWorld).log ++
        [(Thread.ui, Event.getClientRect),
          (Thread.ui, Event.resizeTarget { width := 600, height := 400 }),
          (Thread.ui, Event.render), (Thread.ui, Event.beginDraw), (Thread.ui, Event.clear),
          (Thread.ui, Event.fillRectangle), (Thread.ui, Event.drawText "IntraView HUD Ready"),
          (Thread.ui, Event.endDraw HResult.S_OK)] := by
  decide

/-! ## UpdateText -/

/-- C4: `UpdateText t` sets the displayed text to `t` and keeps the visibility flag.
When Visible it enters `Render` exactly once and whatever is drawn is `t` (with surface,
text brush and text format at hand, `t` is drawn exactly once).  When Hidden it makes no
call at all, `t` is kept, and the next `Show` or `Toggle` enters `Render` exactly once
and draws nothing but `t`.  Scenario: after a successful start the lines `hello`,
`toggle`, `world` draw `hello`, hide the window, and store `world` without a call. -/
theorem C4_UpdateText (t : Thread) (e : Env) (text : String) (w : World) :
    (UpdateText t e text w).overlay.displayText_ = text ∧
    (UpdateText t e text w).overlay.visible_ = w.overlay.visible_ ∧
    (w.overlay.visible_ = true →
      ∃ evs, (UpdateText t e text w).log = w.log ++ evs ∧ renderCount evs = 1 ∧
        (∀ s ∈ drawnTexts evs, s = text) ∧
        (w.overlay.renderTarget_ = true → w.overlay.textBrush_ = true →
          w.overlay.textFormat_ = true → drawnTexts evs = [text])) ∧
    (w.overlay.visible_ = false →
      (UpdateText t e text w).log = w.log ∧
      ∀ (t2 : Thread) (e2 : Env),
        (∃ evs, (Show t2 e2 (UpdateText t e text w)).log = w.log ++ evs ∧
          renderCount evs = 1 ∧ (∀ s ∈ drawnTexts evs, s = text) ∧
          (w.overlay.renderTarget_ = true → w.overlay.textBrush_ = true →
            w.overlay.textFormat_ = true → drawnTexts evs = [text])) ∧
        (∃ evs, (Toggle t2 e2 (UpdateText t e text w)).log = w.log ++ evs ∧
          renderCount evs = 1 ∧ (∀ s ∈ drawnTexts evs, s = text) ∧
          (Toggle t2 e2 (UpdateText t e text w)).overlay.visible_ = true)) ∧
    (ListenLoop [(okEnv, some "hello")] listeningWorld).log =
      listeningWorld.log ++
        [(Thread.listener, Event.render), (Thread.listener, Event.beginDraw),
          (Thread.listener, Event.clear), (Thread.listener, Event.fillRectangle),
          (Thread.listener, Event.drawText "hello"),
          (Thread.listener, Event.endDraw HResult.S_OK)] ∧
    (ListenLoop [(okEnv, some "hello"), (okEnv, some "toggle")] listeningWorld).log =
      (ListenLoop [(okEnv, some "hello")] listeningWorld).log ++
        [(Thread.listener, Event.showWindow false)] ∧
    (ListenLoop [(okEnv, some "hello"), (okEnv, some "toggle")]
      listeningWorld).overlay.visible_ = false ∧
    (ListenLoop [(okEnv, some "hello"), (okEnv, some "toggle"), (okEnv, some "world")]
      listeningWorld).log =
      (ListenLoop [(okEnv, some "hello"), (okEnv, some "toggle")] listeningWorld).log ∧
    (ListenLoop [(okEnv, some "hello"), (okEnv, some "toggle"), (okEnv, some "world")]
      listeningWorld).overlay.displayText_ = "world" := by
  have hshow : ∀ (t2 : Thread) (e2 : Env) (o : OverlayWindow), o.displayText_ = text →
      renderCount ((t2, Event.showWindow true) :: (t2, Event.updateWindow) ::
          renderEvents t2 e2 o) = 1 ∧
      (∀ s ∈ drawnTexts ((t2, Event.showWindow true) :: (t2, Event.updateWindow) ::
          renderEvents t2 e2 o), s = text) ∧
      (o.renderTarget_ = true → o.textBrush_ = true → o.textFormat_ = true →
        drawnTexts ((t2, Event.showWindow true) :: (t2, Event.updateWindow) ::
          renderEvents t2 e2 o) = [text]) := by
    intro t2 e2 o ho
    refine ⟨?_, ?_, ?_⟩
    · have := renderCount_renderEvents t2 e2 o
      simpa [renderCount] using this
    · intro s hs
      have hs2 : s ∈ drawnTexts (renderEvents t2 e2 o) := hs
      rw [← ho]
      exact drawnTexts_renderEvents_subset t2 e2 o s hs2
    · intro h1 h2 h3
      show drawnTexts (renderEvents t2 e2 o) = [text]
      rw [drawnTexts_renderEvents_ready t2 e2 o h1 h2 h3, ho]
  refine ⟨?_, ?_, ?_, ?_, by decide, by decide, by decide, by decide, by decide⟩
  · rw [UpdateText_eq]; split_ifs <;> simp
  · rw [UpdateText_eq]; split_ifs <;> simp
  · intro hv
    rw [UpdateText_eq, if_pos hv]
    refine ⟨_, rfl, renderCount_renderEvents _ _ _, ?_, ?_⟩
    · exact drawnTexts_renderEvents_subset t e { w.overlay with displayText_ := text }
    · intro h1 h2 h3
      exact drawnTexts_renderEvents_ready t e { w.overlay with displayText_ := text } h1 h2 h3
  · intro hv
    have hu : UpdateText t e text w =
        { w with overlay := { w.overlay with displayText_ := text } } := by
      rw [UpdateText_eq, hv]; simp
    refine ⟨by rw [hu], fun t2 e2 => ⟨?_, ?_⟩⟩
    · rw [hu, Show_eq]
      obtain ⟨h1, h2, h3⟩ := hshow t2 e2
        { w.overlay with displayText_ := text, visible_ := true } rfl
      exact ⟨_, rfl, h1, h2, h3⟩
    · have ht : Toggle t2 e2 (UpdateText t e text w) = Show t2 e2 (UpdateText t e text w) := by
        rw [Toggle_eq, hu]; simp [hv]
      rw [ht, hu, Show_eq]
      obtain ⟨h1, h2, _⟩ := hshow t2 e2
        { w.overlay with displayText_ := text, visible_ := true } rfl
      exact ⟨_, rfl, h1, h2, by simp⟩

/-- C4, at the text `world` sent to the Hidden renderer of the scenario. -/
theorem C4_UpdateText_witness :
    (Hide Thread.listener readyWorld).overlay.visible_ = false ∧
    (UpdateText Thread.listener okEnv "world" (Hide Thread.listener readyWorld)).log =
      (Hide Thread.listener readyWorld).log ∧
    ∃ evs, (Show Thread.listener okEnv
        (UpdateText Thread.listener okEnv "world" (Hide Thread.listener readyWorld))).log =
        (Hide Thread.listener readyWorld).log ++ evs ∧
      renderCount evs = 1 ∧ (∀ s ∈ drawnTexts evs, s = "world") ∧
      ((Hide Thread.listener readyWorld).overlay.renderTarget_ = true →
        (Hide Thread.listener readyWorld).overlay.textBrush_ = true →
        (Hide Thread.listener readyWorld).overlay.textFormat_ = true →
        drawnTexts evs = ["world"]) :=
  ⟨by decide,
    ((C4_UpdateText Thread.listener okEnv "world" (Hide Thread.listener readyWorld)).2.2.2.1
      (by decide)).1,
    (((C4_UpdateText Thread.listener okEnv "world" (Hide Thread.listener readyWorld)).2.2.2.1
      (by decide)).2 Thread.listener okEnv).1⟩

/-! ## Shutdown -/

/-- C5 (the code at the failing input): the second `Shutdown` releases again.  After a
successful `Initialize`, a second `Shutdown` right after the first calls `Release` on the
text format, the text-layout factory and the drawing factory once more: `Shutdown` does
not clear `textFormat_`, `dwFactory_` and `d2dFactory_`.  In the program's own run (the
window is destroyed, standard input ends, `main` calls `Shutdown`, the destructor calls
it again) each of the three is released twice; the surface and the window are released
once. -/
theorem C5_second_Shutdown_releases_again :
    (Shutdown Thread.ui (Shutdown Thread.ui readyWorld)).log =
      (Shutdown Thread.ui readyWorld).log ++
        [(Thread.ui, Event.release Resource.textFormat),
          (Thread.ui, Event.release Resource.dwFactory),
          (Thread.ui, Event.release Resource.d2dFactory)] ∧
    (Shutdown Thread.ui (Shutdown Thread.ui readyWorld)).overlay =
      (Shutdown Thread.ui readyWorld).overlay ∧
    (∃ w, main okInit okEnv okEnv
        [(okEnv, Input.message Msg.WM_DESTROY), (okEnv, Input.stdin none)] = some (0, w) ∧
      releaseCount Resource.textFormat w.log = 2 ∧
      releaseCount Resource.dwFactory w.log = 2 ∧
      releaseCount Resource.d2dFactory w.log = 2 ∧
      releaseCount Resource.renderTarget w.log = 1 ∧
      w.log.count (Thread.ui, Event.destroyWindow) = 1) := by
  refine ⟨by decide, by decide, _, rfl, ?_⟩
  decide

/-! ## Live drawing surfaces -/

theorem liveSurfaces_nil : liveSurfaces [] = 0 := rfl

theorem liveSurfaces_cons (x : Thread × Event) (xs : List (Thread × Event)) :
    liveSurfaces (x :: xs) = surfaceDelta x.2 + liveSurfaces xs := by
  simp [liveSurfaces]

theorem liveSurfaces_append (a b : List (Thread × Event)) :
    liveSurfaces (a ++ b) = liveSurfaces a + liveSurfaces b := by
  simp [liveSurfaces]

theorem surfacesOk_append (c : Int) (a b : List (Thread × Event)) :
    surfacesOk c (a ++ b) = (surfacesOk c a && surfacesOk (c + liveSurfaces a) b) := by
  induction a generalizing c with
  | nil => simp [surfacesOk, liveSurfaces_nil]
  | cons x xs ih =>
    rw [List.cons_append]
    simp only [surfacesOk]
    rw [ih, liveSurfaces_cons, Bool.and_assoc, add_assoc]

/-- Calls that neither create nor release a surface keep the count. -/
theorem surfaces_neutral (c : Int) (l : List (Thread × Event)) (h0 : 0 ≤ c) (h1 : c ≤ 1)
    (h : ∀ x ∈ l, surfaceDelta x.2 = 0) : surfacesOk c l = true ∧ liveSurfaces l = 0 := by
  induction l with
  | nil => exact ⟨rfl, rfl⟩
  | cons x xs ih =>
    have hx := h x (List.mem_cons_self _ _)
    obtain ⟨i1, i2⟩ := ih (fun y hy => h y (List.mem_cons_of_mem _ hy))
    simp [surfacesOk, liveSurfaces_cons, hx, h0, h1, i1, i2]

/-- If the count stays within bounds after every call of `evs`, it is within bounds
after any number of them. -/
theorem surfacesOk_take (c : Int) (evs : List (Thread × Event)) (h0 : 0 ≤ c) (h1 : c ≤ 1)
    (h : surfacesOk c evs = true) (m : Nat) :
    0 ≤ c + liveSurfaces (evs.take m) ∧ c + liveSurfaces (evs.take m) ≤ 1 := by
  induction evs generalizing c m with
  | nil => simp [liveSurfaces_nil, h0, h1]
  | cons x xs ih =>
    cases m with
    | zero => simp [liveSurfaces_nil, h0, h1]
    | succ k =>
      simp only [surfacesOk, Bool.and_eq_true, decide_eq_true_eq] at h
      have := ih (c + surfaceDelta x.2) h.1.1 h.1.2 h.2 k
      simpa [List.take_succ_cons, liveSurfaces_cons, add_assoc] using this

theorem count_bounds (b : Bool) : 0 ≤ count b ∧ count b ≤ 1 := by
  cases b <;> simp [count]

theorem SurfaceInv_append (log evs : List (Thread × Event)) (rt rt2 : Bool)
    (h : SurfaceInv log rt) (hok : surfacesOk (count rt) evs = true)
    (hend : count rt + liveSurfaces evs = count rt2) : SurfaceInv (log ++ evs) rt2 := by
  obtain ⟨h1, h2⟩ := h
  refine ⟨fun n => ?_, by rw [liveSurfaces_append, h2, hend]⟩
  rw [List.take_append_eq_append_take, liveSurfaces_append]
  by_cases hn : n ≤ log.length
  · have : n - log.length = 0 := Nat.sub_eq_zero_of_le hn
    rw [this, List.take_zero, liveSurfaces_nil, add_zero]
    exact h1 n
  · have hl : log.take n = log := List.take_of_length_le (by omega)
    rw [hl, h2]
    exact surfacesOk_take (count rt) evs (count_bounds rt).1 (count_bounds rt).2 hok _

theorem createEvents_surfaces (t : Thread) (e : Env) (o : OverlayWindow) :
    surfacesOk (count o.renderTarget_) (createEvents t e o) = true ∧
      count o.renderTarget_ + liveSurfaces (createEvents t e o) =
        count (createOverlay e o).renderTarget_ := by
  obtain ⟨hwnd, vis, txt, d2d, rt, tb, bb, dw, tf, d1, d2, d3⟩ := o
  obtain ⟨sz, crt, ctb, cbb, hr⟩ := e
  cases rt <;> cases d2d <;> cases crt <;>
    simp [createEvents, createOverlay, surfacesOk, surfaceDelta, liveSurfaces, count]

theorem drawEvents_neutral (t : Thread) (e : Env) (o : OverlayWindow) :
    ∀ x ∈ drawEvents t e o, surfaceDelta x.2 = 0 := by
  unfold drawEvents
  split_ifs <;> simp [surfaceDelta]

theorem discardEvents_surfaces (t : Thread) (o : OverlayWindow) :
    surfacesOk (count o.renderTarget_) (discardEvents t o) = true ∧
      count o.renderTarget_ + liveSurfaces (discardEvents t o) = 0 := by
  obtain ⟨hwnd, vis, txt, d2d, rt, tb, bb, dw, tf, d1, d2, d3⟩ := o
  cases rt <;> cases tb <;> cases bb <;>
    simp [discardEvents, surfacesOk, surfaceDelta, liveSurfaces, count]

theorem renderEvents_surfaces (t : Thread) (e : Env) (o : OverlayWindow) :
    surfacesOk (count o.renderTarget_) (renderEvents t e o) = true ∧
      count o.renderTarget_ + liveSurfaces (renderEvents t e o) =
        count (renderOverlay e o).renderTarget_ := by
  obtain ⟨c1, c2⟩ := createEvents_surfaces t e o
  obtain ⟨b0, b1⟩ := count_bounds o.renderTarget_
  obtain ⟨b2, b3⟩ := count_bounds (createOverlay e o).renderTarget_
  obtain ⟨n1, n2⟩ := surfaces_neutral _ _ b2 b3 (drawEvents_neutral t e (createOverlay e o))
  obtain ⟨d1, d2⟩ := discardEvents_surfaces t (createOverlay e o)
  have hd : surfaceDelta Event.render = 0 := rfl
  have hcons : ∀ l : List (Thread × Event),
      surfacesOk (count o.renderTarget_) ((t, Event.render) :: l) =
        surfacesOk (count o.renderTarget_) l ∧
      liveSurfaces ((t, Event.render) :: l) = liveSurfaces l := by
    intro l
    simp [surfacesOk, liveSurfaces_cons, hd, b0, b1]
  unfold renderEvents renderOverlay
  rw [(hcons _).1, (hcons _).2, surfacesOk_append, liveSurfaces_append, c1, c2]
  generalize createEvents t e o = ce at *
  generalize drawEvents t e (createOverlay e o) = dr at *
  generalize discardEvents t (createOverlay e o) = de at *
  cases h : (createOverlay e o).renderTarget_
  · simp [surfacesOk, liveSurfaces_nil, h]
    rw [h] at c2
    exact c2
  · rw [h] at n1 d1 d2 c2
    by_cases h2 : e.endDraw = HResult.D2DERR_RECREATE_TARGET
    · simp only [h2, if_true, surfacesOk_append, liveSurfaces_append, n1, n2, add_zero, d1,
        Bool.and_self, Bool.true_and, true_and, decide_True, discardOverlay]
      rw [← add_assoc, c2]
      simpa [count] using d2
    · simp only [h2, if_false, List.append_nil, n1, n2, Bool.true_and, true_and,
        Bool.and_false, Bool.false_eq_true, add_zero, decide_False, if_true]
      rw [h]
      exact c2

theorem Adds_nil (rt : Bool) : Adds rt [] rt := ⟨rfl, by simp [liveSurfaces_nil]⟩

theorem Adds_append (a b c : Bool) (l1 l2 : List (Thread × Event))
    (h1 : Adds a l1 b) (h2 : Adds b l2 c) : Adds a (l1 ++ l2) c := by
  obtain ⟨p1, p2⟩ := h1
  obtain ⟨q1, q2⟩ := h2
  refine ⟨?_, ?_⟩
  · rw [surfacesOk_append, p1, p2, q1]; rfl
  · rw [liveSurfaces_append, ← add_assoc, p2, q2]

theorem Adds_neutral (rt : Bool) (l : List (Thread × Event))
    (h : ∀ x ∈ l, surfaceDelta x.2 = 0) : Adds rt l rt := by
  obtain ⟨h1, h2⟩ := surfaces_neutral (count rt) l (count_bounds rt).1 (count_bounds rt).2 h
  exact ⟨h1, by rw [h2, add_zero]⟩

theorem Adds_render (t : Thread) (e : Env) (o : OverlayWindow) :
    Adds o.renderTarget_ (renderEvents t e o) (renderOverlay e o).renderTarget_ :=
  renderEvents_surfaces t e o

theorem Adds_create (t : Thread) (e : Env) (o : OverlayWindow) :
    Adds o.renderTarget_ (createEvents t e o) (createOverlay e o).renderTarget_ :=
  createEvents_surfaces t e o

theorem SurfaceInv_Adds (log evs : List (Thread × Event)) (rt rt2 : Bool)
    (h : SurfaceInv log rt) (ha : Adds rt evs rt2) : SurfaceInv (log ++ evs) rt2 :=
  SurfaceInv_append log evs rt rt2 h ha.1 ha.2

/-- What an operation appends keeps the surface count within 0 and 1. -/
theorem step_surfaces (t : Thread) (e : Env) (a : Action) (w : World) :
    ∃ evs, (step t e a w).log = w.log ++ evs ∧
      Adds w.overlay.renderTarget_ evs (step t e a w).overlay.renderTarget_ := by
  have hshow : ∃ evs, (Show t e w).log = w.log ++ evs ∧
      Adds w.overlay.renderTarget_ evs (Show t e w).overlay.renderTarget_ := by
    rw [Show_eq]
    refine ⟨_, rfl, ?_⟩
    exact Adds_append _ w.overlay.renderTarget_ _
      [(t, Event.showWindow true), (t, Event.updateWindow)] _
      (Adds_neutral _ _ (by simp [surfaceDelta]))
      (Adds_render t e { w.overlay with visible_ := true })
  have hhide : ∃ evs, (Hide t w).log = w.log ++ evs ∧
      Adds w.overlay.renderTarget_ evs (Hide t w).overlay.renderTarget_ := by
    rw [Hide_eq]
    exact ⟨_, rfl, Adds_neutral _ _ (by simp [surfaceDelta])⟩
  have hpaint : ∃ evs, (WindowProc t e true Msg.WM_PAINT w).log = w.log ++ evs ∧
      Adds w.overlay.renderTarget_ evs
        (WindowProc t e true Msg.WM_PAINT w).overlay.renderTarget_ := by
    rw [WindowProc_eq]
    refine ⟨_, rfl, ?_⟩
    exact Adds_append _ _ _ _ [(t, Event.validateRect)] (Adds_render t e w.overlay)
      (Adds_neutral _ _ (by simp [surfaceDelta]))
  cases a with
  | Toggle =>
    have hs : step t e Action.Toggle w =
        (if w.overlay.visible_ then Hide t w else Show t e w) := rfl
    rw [hs]
    cases h : w.overlay.visible_
    · exact hshow
    · exact hhide
  | Show => exact hshow
  | Hide => exact hhide
  | UpdateText text =>
    have hs : step t e (Action.UpdateText text) w = UpdateText t e text w := rfl
    rw [hs, UpdateText_eq]
    cases h : w.overlay.visible_
    · exact ⟨[], by simp, Adds_nil _⟩
    · exact ⟨_, rfl, Adds_render t e { w.overlay with displayText_ := text }⟩
  | Message uMsg =>
    cases uMsg with
    | WM_PAINT => exact hpaint
    | WM_DISPLAYCHANGE => exact hpaint
    | WM_SIZE =>
      have hs : step t e (Action.Message Msg.WM_SIZE) w = Resize t e w := rfl
      rw [hs, Resize_eq]
      by_cases h : w.overlay.renderTarget_ = true
      · rw [if_pos h]
        exact ⟨_, rfl, Adds_append _ w.overlay.renderTarget_ _
          [(t, Event.getClientRect), (t, Event.resizeTarget e.clientSize)] _
          (Adds_neutral _ _ (by simp [surfaceDelta])) (Adds_render t e w.overlay)⟩
      · rw [if_neg h]
        exact ⟨[], by simp, Adds_nil _⟩
    | WM_DESTROY => exact ⟨[(t, Event.postQuitMessage)], rfl, Adds_neutral _ _ (by simp [surfaceDelta])⟩
    | other => exact ⟨[(t, Event.defWindowProc)], rfl, Adds_neutral _ _ (by simp [surfaceDelta])⟩

theorem exec_surfaces (as : List (Thread × Env × Action)) (w : World)
    (h : SurfaceInv w.log w.overlay.renderTarget_) :
    SurfaceInv (exec as w).log (exec as w).overlay.renderTarget_ := by
  induction as generalizing w with
  | nil => exact h
  | cons a as ih =>
    rw [exec_cons]
    apply ih
    obtain ⟨evs, h1, h2⟩ := step_surfaces a.1 a.2.1 a.2.2 w
    rw [h1]
    exact SurfaceInv_Adds _ _ _ _ h h2

theorem Adds_cons_neutral (a b : Bool) (x : Thread × Event) (l : List (Thread × Event))
    (hx : surfaceDelta x.2 = 0) (h : Adds a l b) : Adds a (x :: l) b :=
  Adds_append a a b [x] l (Adds_neutral a [x] (by simpa using hx)) h

theorem Initialize_surfaces (t : Thread) (ie : InitEnv) (e : Env) (w : World) :
    ∃ evs, (Initialize t ie e w).2.log = w.log ++ evs ∧
      Adds w.overlay.renderTarget_ evs (Initialize t ie e w).2.overlay.renderTarget_ := by
  obtain ⟨rc, sw, cw, d2d, dw, tf⟩ := ie
  have hc : ∀ (rt : Bool) (o : OverlayWindow), o.renderTarget_ = rt →
      Adds rt (createEvents t e o) (createOverlay e o).renderTarget_ := by
    intro rt o h
    rw [← h]
    exact Adds_create t e o
  cases rc
  · exact ⟨[(t, Event.registerClassEx false)], rfl, Adds_neutral _ _ (by simp [surfaceDelta])⟩
  · cases cw
    · exact ⟨[(t, Event.registerClassEx true),
        (t, Event.createWindowEx (Int.tdiv (sw - WINDOW_WIDTH) 2) 100 WINDOW_WIDTH
          WINDOW_HEIGHT false)], by simp [Initialize, emit],
        Adds_neutral _ _ (by simp [surfaceDelta])⟩
    · cases dw <;> try cases tf
      all_goals
        simp only [Initialize, CreateDeviceResources_eq, emit, Bool.not_true,
          Bool.false_eq_true, if_false, if_true, List.append_assoc, List.singleton_append,
          List.cons_append, List.nil_append]
        refine ⟨_, rfl, ?_⟩
        repeat (refine Adds_cons_neutral _ _ _ _ (by rfl) ?_)
        exact hc _ _ rfl

theorem SurfaceInv_start : SurfaceInv World.start.log World.start.overlay.renderTarget_ := by
  refine ⟨fun n => ?_, rfl⟩
  simp [World.start, liveSurfaces_nil]

/-- Every state reached from `Initialize` satisfies the surface invariant. -/
theorem reachable_surfaces (ie : InitEnv) (e0 : Env) (as : List (Thread × Env × Action)) :
    SurfaceInv (exec as (Initialize Thread.ui ie e0 World.start).2).log
      (exec as (Initialize Thread.ui ie e0 World.start).2).overlay.renderTarget_ := by
  apply exec_surfaces
  obtain ⟨evs, h1, h2⟩ := Initialize_surfaces Thread.ui ie e0 World.start
  rw [h1]
  exact SurfaceInv_Adds _ _ _ _ SurfaceInv_start h2

/-- C8: at most one drawing surface is live at any time.  In every state reached from
`Initialize` (whatever it and the platform answered) by any sequence of `Show`, `Hide`,
`Toggle`, `UpdateText` and window messages (paint, display change, size change), with
any outcome of creation and of `EndDraw`, the number of surfaces created and not yet
released is 0 or 1 after every single call of the log, and at the end it is 1 exactly
when `renderTarget_` is non-null.  Two `Show` calls in a row each enter `Render` once,
end in Visible, and keep the count at most 1 throughout. -/
theorem C8_at_most_one_live_surface (ie : InitEnv) (e0 : Env)
    (as : List (Thread × Env × Action)) :
    (∀ n, 0 ≤ liveSurfaces ((exec as (Initialize Thread.ui ie e0 World.start).2).log.take n) ∧
      liveSurfaces ((exec as (Initialize Thread.ui ie e0 World.start).2).log.take n) ≤ 1) ∧
    liveSurfaces (exec as (Initialize Thread.ui ie e0 World.start).2).log =
      count (exec as (Initialize Thread.ui ie e0 World.start).2).overlay.renderTarget_ ∧
    ∀ (t1 t2 : Thread) (e1 e2 : Env),
      (Show t2 e2 (Show t1 e1
        (exec as (Initialize Thread.ui ie e0 World.start).2))).overlay.visible_ = true ∧
      renderCount (Show t1 e1 (exec as (Initialize Thread.ui ie e0 World.start).2)).log =
        renderCount (exec as (Initialize Thread.ui ie e0 World.start).2).log + 1 ∧
      renderCount (Show t2 e2 (Show t1 e1
        (exec as (Initialize Thread.ui ie e0 World.start).2))).log =
        renderCount (exec as (Initialize Thread.ui ie e0 World.start).2).log + 2 ∧
      ∀ n, liveSurfaces ((Show t2 e2 (Show t1 e1
        (exec as (Initialize Thread.ui ie e0 World.start).2))).log.take n) ≤ 1 := by
  obtain ⟨h1, h2⟩ := reachable_surfaces ie e0 as
  refine ⟨h1, h2, fun t1 t2 e1 e2 => ?_⟩
  have hcount : ∀ (t : Thread) (e : Env) (w : World),
      renderCount (Show t e w).log = renderCount w.log + 1 := by
    intro t e w
    rw [Show_eq]
    have := renderCount_renderEvents t e { w.overlay with visible_ := true }
    simp only [renderCount, List.countP_append, List.countP_cons] at this ⊢
    simp [this]
  have hexec : Show t2 e2 (Show t1 e1 (exec as (Initialize Thread.ui ie e0 World.start).2)) =
      exec (as ++ [(t1, e1, Action.Show), (t2, e2, Action.Show)])
        (Initialize Thread.ui ie e0 World.start).2 := by
    rw [exec_append]; rfl
  refine ⟨?_, hcount _ _ _, ?_, ?_⟩
  · rw [Show_eq]; simp
  · rw [hcount, hcount]
  · intro n
    rw [hexec]
    exact ((reachable_surfaces ie e0 _).1 n).2

/-! ## Device loss -/

/-- C7: device-dependent resources are recovered lazily.  If `Render` gets to draw (the
surface is there or is created) and `EndDraw` reports device loss, then `Render` returns
with surface and both brushes null, the surface released once, and text and visibility
as before.  The next `Render` starts by asking for the client area and, with a drawing
factory, by calling `CreateHwndRenderTarget` with that size.  When that creation fails,
this `Render` makes no other call (no clear, fill or draw) and leaves the object as it
was, so that the `Render` after it attempts the creation again. -/
theorem C7_device_loss_recovery (t : Thread) (e : Env) (w : World)
    (hdraw : w.overlay.renderTarget_ = true ∨
      (w.overlay.d2dFactory_ = true ∧ e.createRenderTarget = true))
    (hlost : e.endDraw = HResult.D2DERR_RECREATE_TARGET) :
    (Render t e w).overlay.renderTarget_ = false ∧
    (Render t e w).overlay.textBrush_ = false ∧
    (Render t e w).overlay.backgroundBrush_ = false ∧
    (Render t e w).overlay.displayText_ = w.overlay.displayText_ ∧
    (Render t e w).overlay.visible_ = w.overlay.visible_ ∧
    (∃ evs, (Render t e w).log = w.log ++ evs ∧
      releaseCount Resource.renderTarget evs = 1) ∧
    ∀ (t2 : Thread) (e2 : Env),
      (w.overlay.d2dFactory_ = true →
        ∃ rest, (Render t2 e2 (Render t e w)).log = (Render t e w).log ++
          ((t2, Event.render) :: (t2, Event.getClientRect) ::
            (t2, Event.createHwndRenderTarget e2.clientSize e2.createRenderTarget) :: rest)) ∧
      (e2.createRenderTarget = false →
        (Render t2 e2 (Render t e w)).overlay = (Render t e w).overlay ∧
        (Render t2 e2 (Render t e w)).ipc = (Render t e w).ipc ∧
        (Render t2 e2 (Render t e w)).log = (Render t e w).log ++
          ((t2, Event.render) :: (t2, Event.getClientRect) ::
            (if w.overlay.d2dFactory_ then
              [(t2, Event.createHwndRenderTarget e2.clientSize false)] else [])) ∧
        ∀ (t3 : Thread) (e3 : Env), w.overlay.d2dFactory_ = true →
          ∃ rest, (Render t3 e3 (Render t2 e2 (Render t e w))).log =
            (Render t2 e2 (Render t e w)).log ++
              ((t3, Event.render) :: (t3, Event.getClientRect) ::
                (t3, Event.createHwndRenderTarget e3.clientSize e3.createRenderTarget) ::
                  rest)) := by
  have h1 : (createOverlay e w.overlay).renderTarget_ = true := by
    unfold createOverlay
    rcases hdraw with h | ⟨h, h'⟩
    · simp [h]
    · cases hrt : w.overlay.renderTarget_ <;> simp [h, h', hrt]
  have ho : renderOverlay e w.overlay = discardOverlay (createOverlay e w.overlay) := by
    simp [renderOverlay, h1, hlost]
  -- the object after the lossy Render
  have hd2d : (discardOverlay (createOverlay e w.overlay)).d2dFactory_ = w.overlay.d2dFactory_ := by
    simp [discardOverlay]
  have hrt : (discardOverlay (createOverlay e w.overlay)).renderTarget_ = false := rfl
  -- what the next Render does on an object without surface
  have hnext : ∀ (t2 : Thread) (e2 : Env) (o : OverlayWindow), o.renderTarget_ = false →
      o.d2dFactory_ = true →
      ∃ rest, renderEvents t2 e2 o = (t2, Event.render) :: (t2, Event.getClientRect) ::
        (t2, Event.createHwndRenderTarget e2.clientSize e2.createRenderTarget) :: rest := by
    intro t2 e2 o h2 h3
    cases h4 : e2.createRenderTarget <;> simp [renderEvents, createEvents, h2, h3, h4]
  have hfail : ∀ (t2 : Thread) (e2 : Env) (o : OverlayWindow), o.renderTarget_ = false →
      e2.createRenderTarget = false →
      renderOverlay e2 o = o ∧
      renderEvents t2 e2 o = (t2, Event.render) :: (t2, Event.getClientRect) ::
        (if o.d2dFactory_ then [(t2, Event.createHwndRenderTarget e2.clientSize false)]
         else []) := by
    intro t2 e2 o h2 h3
    have hc : createOverlay e2 o = o := by simp [createOverlay, h2, h3]
    refine ⟨by simp [renderOverlay, hc, h2], ?_⟩
    cases h4 : o.d2dFactory_ <;> simp [renderEvents, createEvents, hc, h2, h3, h4]
  rw [Render_eq, ho]
  refine ⟨rfl, rfl, rfl, by simp [discardOverlay], by simp [discardOverlay], ?_, ?_⟩
  · refine ⟨_, rfl, ?_⟩
    have hce : releaseCount Resource.renderTarget (createEvents t e w.overlay) = 0 := by
      unfold createEvents
      split_ifs <;> simp [releaseCount]
    have hdr : releaseCount Resource.renderTarget
        (drawEvents t e (createOverlay e w.overlay)) = 0 := by
      unfold drawEvents
      split_ifs <;> simp [releaseCount]
    have hdi : releaseCount Resource.renderTarget
        (discardEvents t (createOverlay e w.overlay)) = 1 := by
      unfold discardEvents
      rw [h1]
      cases (createOverlay e w.overlay).textBrush_ <;>
        cases (createOverlay e w.overlay).backgroundBrush_ <;> simp [releaseCount]
    unfold releaseCount at hce hdr hdi ⊢
    unfold renderEvents
    rw [if_pos h1, if_pos hlost, List.countP_cons, List.countP_append, List.countP_append,
      hce, hdr, hdi]
    simp
  · intro t2 e2
    refine ⟨fun hf => ?_, fun hc => ?_⟩
    · rw [Render_eq]
      obtain ⟨rest, hr⟩ := hnext t2 e2 _ hrt (hd2d.trans hf)
      exact ⟨rest, by rw [hr]⟩
    · rw [Render_eq]
      obtain ⟨hf1, hf2⟩ := hfail t2 e2 _ hrt hc
      refine ⟨hf1, rfl, ?_, ?_⟩
      · show _ ++ renderEvents t2 e2 _ = _
        rw [hf2, hd2d]
      · intro t3 e3 hf
        rw [Render_eq]
        show ∃ rest, _ ++ renderEvents t3 e3 (renderOverlay e2 _) = _
        rw [hf1]
        obtain ⟨rest, hr⟩ := hnext t3 e3 _ hrt (hd2d.trans hf)
        exact ⟨rest, by rw [hr]⟩

/-- C7, at a lossy `Render` of the freshly initialized renderer followed by a `Render`
whose surface creation fails. -/
theorem C7_device_loss_recovery_witness :
    readyWorld.overlay.renderTarget_ = true ∧
    lostEnv.endDraw = HResult.D2DERR_RECREATE_TARGET ∧
    (Render Thread.ui lostEnv readyWorld).overlay.renderTarget_ = false ∧
    (Render Thread.ui lostEnv readyWorld).overlay.textBrush_ = false ∧
    (Render Thread.ui lostEnv readyWorld).overlay.backgroundBrush_ = false ∧
    (Render Thread.ui failEnv (Render Thread.ui lostEnv readyWorld)).overlay =
      (Render Thread.ui lostEnv readyWorld).overlay :=
  ⟨by decide, by decide,
    (C7_device_loss_recovery Thread.ui lostEnv readyWorld (Or.inl (by decide)) (by decide)).1,
    (C7_device_loss_recovery Thread.ui lostEnv readyWorld (Or.inl (by decide)) (by decide)).2.1,
    (C7_device_loss_recovery Thread.ui lostEnv readyWorld (Or.inl (by decide))
      (by decide)).2.2.1,
    (((C7_device_loss_recovery Thread.ui lostEnv readyWorld (Or.inl (by decide))
      (by decide)).2.2.2.2.2.2 Thread.ui failEnv).2 (by decide)).1⟩

/-! ## Size changes -/

/-- C9 (as stated, refuted): a Visible renderer without surface ignores a size change.
After a successful `Initialize`, a `Show` whose `EndDraw` reports device loss leaves the
renderer Visible with no surface; the size-changed notification that follows changes
nothing: no resize, no `Render`.  The same holds when `Initialize` could not create the
surface. -/
theorem C9_size_change_ignored_without_surface :
    (exec [(Thread.ui, lostEnv, Action.Show)] readyWorld).overlay.visible_ = true ∧
    (exec [(Thread.ui, lostEnv, Action.Show)] readyWorld).overlay.renderTarget_ = false ∧
    exec [(Thread.ui, lostEnv, Action.Show), (Thread.ui, okEnv, Action.Message Msg.WM_SIZE)]
        readyWorld =
      exec [(Thread.ui, lostEnv, Action.Show)] readyWorld ∧
    (Initialize Thread.ui okInit failEnv World.start).1 = true ∧
    (Initialize Thread.ui okInit failEnv World.start).2.overlay.visible_ = true ∧
    WindowProc Thread.ui okEnv true Msg.WM_SIZE
        (Initialize Thread.ui okInit failEnv World.start).2 =
      (Initialize Thread.ui okInit failEnv World.start).2 := by
  decide

/-- C9 (amended): in a Visible state that holds a drawing surface, a size-changed
notification asks for the client area, resizes the surface to it, and then enters
`Render` exactly once (no further resize); the visibility flag stays set.  In a state
without surface the notification changes nothing. -/
theorem C9_size_change_with_surface (t : Thread) (e : Env) (w : World) :
    (w.overlay.visible_ = true → w.overlay.renderTarget_ = true →
      ∃ evs, (WindowProc t e true Msg.WM_SIZE w).log =
          w.log ++ ((t, Event.getClientRect) :: (t, Event.resizeTarget e.clientSize) :: evs) ∧
        evs.head? = some (t, Event.render) ∧
        renderCount evs = 1 ∧
        (∀ c ∈ evs, ∀ size, c.2 ≠ Event.resizeTarget size) ∧
        (WindowProc t e true Msg.WM_SIZE w).overlay.visible_ = true) ∧
    (w.overlay.renderTarget_ = false → WindowProc t e true Msg.WM_SIZE w = w) := by
  have hs : WindowProc t e true Msg.WM_SIZE w = Resize t e w := rfl
  rw [hs, Resize_eq]
  refine ⟨fun hv hrt => ?_, fun hrt => ?_⟩
  · rw [if_pos hrt]
    refine ⟨_, rfl, rfl, renderCount_renderEvents t e w.overlay, ?_, ?_⟩
    · intro c hc size
      exact (renderEvents_calls t e w.overlay c hc).2.2.2 size
    · simp [hv]
  · simp [hrt]

/-- C9 (amended), at a size change of the freshly initialized, Visible renderer. -/
theorem C9_size_change_with_surface_witness :
    readyWorld.overlay.visible_ = true ∧ readyWorld.overlay.renderTarget_ = true ∧
    ∃ evs, (WindowProc Thread.ui okEnv true Msg.WM_SIZE readyWorld).log =
        readyWorld.log ++ ((Thread.ui, Event.getClientRect) ::
          (Thread.ui, Event.resizeTarget okEnv.clientSize) :: evs) ∧
      evs.head? = some (Thread.ui, Event.render) ∧
      renderCount evs = 1 ∧
      (∀ c ∈ evs, ∀ size, c.2 ≠ Event.resizeTarget size) ∧
      (WindowProc Thread.ui okEnv true Msg.WM_SIZE readyWorld).overlay.visible_ = true :=
  ⟨by decide, by decide,
    (C9_size_change_with_surface Thread.ui okEnv readyWorld).1 (by decide) (by decide)⟩

/-! ## Supporting facts on `Shutdown` and on `main` -/

/-- The operation `Shutdown` clears the device-dependent pointers and the window handle, but leaves
`textFormat_`, `dwFactory_` and `d2dFactory_` as they were. -/
theorem Shutdown_keeps_factories (t : Thread) (w : World) :
    (Shutdown t w).overlay.textFormat_ = w.overlay.textFormat_ ∧
    (Shutdown t w).overlay.dwFactory_ = w.overlay.dwFactory_ ∧
    (Shutdown t w).overlay.d2dFactory_ = w.overlay.d2dFactory_ ∧
    (Shutdown t w).overlay.renderTarget_ = false ∧
    (Shutdown t w).overlay.textBrush_ = false ∧
    (Shutdown t w).overlay.backgroundBrush_ = false ∧
    (Shutdown t w).overlay.hwnd_ = false := by
  unfold Shutdown
  rw [DiscardDeviceResources_eq]
  cases h1 : w.overlay.textFormat_ <;> cases h2 : w.overlay.dwFactory_ <;>
    cases h3 : w.overlay.d2dFactory_ <;> cases h4 : w.overlay.hwnd_ <;>
    simp [discardOverlay, emit, h1, h2, h3, h4]

/-- Whenever the first `Shutdown` released the text format, a second `Shutdown` begins by
releasing it again. -/
theorem Shutdown_twice_releases_textFormat (t : Thread) (w : World)
    (h : w.overlay.textFormat_ = true) :
    ∃ rest, (Shutdown t (Shutdown t w)).log =
      (Shutdown t w).log ++ ((t, Event.release Resource.textFormat) :: rest) := by
  obtain ⟨k1, k2, k3, k4, k5, k6, k7⟩ := Shutdown_keeps_factories t w
  rw [h] at k1
  generalize Shutdown t w = w1 at *
  have hd : discardEvents t w1.overlay = [] := by
    simp [discardEvents, k4, k5, k6]
  unfold Shutdown
  rw [DiscardDeviceResources_eq, hd]
  cases h2 : w1.overlay.dwFactory_ <;> cases h3 : w1.overlay.d2dFactory_ <;>
    simp [discardOverlay, emit, k1, k7, h2, h3]

theorem Initialize_no_quit (t : Thread) (ie : InitEnv) (e : Env) (w : World) :
    ∃ evs, (Initialize t ie e w).2.log = w.log ++ evs ∧
      ∀ c ∈ evs, c.2 ≠ Event.postQuitMessage := by
  obtain ⟨rc, sw, cw, d2d, dw, tf⟩ := ie
  cases rc
  · exact ⟨[(t, Event.registerClassEx false)], rfl, by simp⟩
  · cases cw
    · exact ⟨[(t, Event.registerClassEx true),
        (t, Event.createWindowEx (Int.tdiv (sw - WINDOW_WIDTH) 2) 100 WINDOW_WIDTH
          WINDOW_HEIGHT false)], by simp [Initialize, emit], by simp⟩
    · cases dw <;> try cases tf
      all_goals
        simp only [Initialize, CreateDeviceResources_eq, emit, Bool.not_true,
          Bool.false_eq_true, if_false, if_true, List.append_assoc, List.singleton_append,
          List.cons_append, List.nil_append]
        refine ⟨_, rfl, ?_⟩
        repeat (refine List.forall_mem_cons.2 ⟨by simp, ?_⟩)
        exact fun c hc => (createEvents_calls t e _ c hc).1.2.1

/-- After a successful `Initialize`, `main` does not return as long as no `WM_DESTROY`
is dispatched, whatever the listener reads. -/
theorem main_waits (ie : InitEnv) (e0 e1 : Env) (inputs : List (Env × Input))
    (hinit : (Initialize Thread.ui ie e0 (emit Thread.ui Event.coInitialize World.start)).1 =
      true)
    (h : ∀ x ∈ inputs, x.2 ≠ Input.message Msg.WM_DESTROY) :
    main ie e0 e1 inputs = none := by
  obtain ⟨evs, h1, h2⟩ :=
    Initialize_no_quit Thread.ui ie e0 (emit Thread.ui Event.coInitialize World.start)
  have q0 : quitPosted Thread.ui (emit Thread.ui Event.coInitialize World.start) = false := by
    decide
  have q1 := quitPosted_append Thread.ui _ _ evs h1 q0 (fun c hc _ => h2 c hc)
  have q2 : quitPosted Thread.ui (Start Thread.ui
      (emit Thread.ui (Event.wcout "IntraView Overlay Started")
        (Initialize Thread.ui ie e0
          (emit Thread.ui Event.coInitialize World.start)).2)) = false := by
    refine quitPosted_append Thread.ui _ _
      [(Thread.ui, Event.wcout "IntraView Overlay Started"), (Thread.ui, Event.threadStart)]
      ?_ q1 ?_
    · simp [Start, emit]
    · intro c hc _
      simp only [List.mem_cons, List.mem_singleton, List.not_mem_nil, or_false] at hc
      rcases hc with rfl | rfl <;> simp
  obtain ⟨_, evs2, h3, _, h4⟩ := step_log Thread.ui e1 Action.Show
    (Start Thread.ui (emit Thread.ui (Event.wcout "IntraView Overlay Started")
      (Initialize Thread.ui ie e0 (emit Thread.ui Event.coInitialize World.start)).2))
  have hq := quitPosted_append Thread.ui _ _ evs2 h3 q2 (fun c hc _ => h4 (by simp) c hc)
  have hl := messageLoop_waits inputs _ hq h
  have hs : ∀ w, step Thread.ui e1 Action.Show w = Show Thread.ui e1 w := fun _ => rfl
  rw [hs] at hl
  simp only [main, hinit, Bool.not_true, Bool.false_eq_true, if_false, Run, hl]

end IntraView
